import Mathlib

/-!
# Verification of the prefixed_uuids library

A shallow embedding of `main.go` of the `prefixed_uuids` Go library:
a registry mapping entity kinds to string prefixes, serializing UUIDs as
`<prefix><separator><base64url-no-padding payload>` tokens, with composite
(multi-entity) tokens and strict validation.

Strings are modelled as `List Char`, bytes as `Nat` values below 256, Go maps
as association lists where insertion prepends and lookup takes the first hit
(so a later insertion shadows an earlier one, exactly Go's overwrite
semantics).  Go's multiple return values `(T, error)` are modelled as pairs
with an `Option` error component; pointer-writing (`DeserializeMulti`) is
modelled by returning the final contents of the caller-supplied slots.
-/

namespace PrefixedUUIDs

/-- Go strings, as lists of characters. -/
abbrev Str := List Char

/-- `type Entity int`. -/
abbrev Entity := Int

/-- `NullEntity Entity = 0`. -/
def NullEntity : Entity := 0

/-- Association-list lookup: first match wins (entries are prepended on
insertion, so the most recent binding shadows older ones, like a Go map). -/
def alookup {κ α : Type} [DecidableEq κ] : List (κ × α) → κ → Option α
  | [], _ => none
  | (k, v) :: rest, key => if key = k then some v else alookup rest key

/-- A 16-byte UUID value (`uuid.UUID` is `[16]byte` in Go). -/
def UUID := { l : List Nat // l.length = 16 ∧ ∀ b ∈ l, b < 256 }

instance : DecidableEq UUID := fun a b =>
  match decEq a.val b.val with
  | isTrue h => isTrue (Subtype.ext h)
  | isFalse h => isFalse (fun hh => h (congrArg Subtype.val hh))

/-- `uuid.Nil`: the all-zero UUID. -/
def uuidNil : UUID :=
  ⟨List.replicate 16 0, by simp⟩

/-- `uuid.FromBytes`: succeeds exactly on a 16-byte slice.  (In Go the byte
range bound is carried by the `byte` type itself; here it is part of the
check, and every byte list produced by the base64 decoder satisfies it.) -/
def fromBytes (l : List Nat) : Option UUID :=
  if h : l.length = 16 ∧ ∀ b ∈ l, b < 256 then some ⟨l, h⟩ else none

/-! ## base64url without padding (`base64.URLEncoding.WithPadding(NoPadding)`)

The URL-safe alphabet maps 6-bit values `0..63` to
`A-Z`, `a-z`, `0-9`, `-`, `_`.  Go's decoder skips `\r` and `\n`, rejects any
other character outside the alphabet, rejects a filtered length `≡ 1 (mod 4)`,
and (being non-strict by default) silently discards unused trailing bits of a
final partial group. -/

/-- Map a 6-bit value to its base64url alphabet character. -/
def sextetToChar (v : Nat) : Char :=
  if v < 26 then Char.ofNat (65 + v)
  else if v < 52 then Char.ofNat (97 + (v - 26))
  else if v < 62 then Char.ofNat (48 + (v - 52))
  else if v = 62 then Char.ofNat 45
  else Char.ofNat 95

/-- Map a character to its 6-bit value, `none` if outside the alphabet. -/
def charToSextet (c : Char) : Option Nat :=
  if 65 ≤ c.toNat ∧ c.toNat ≤ 90 then some (c.toNat - 65)
  else if 97 ≤ c.toNat ∧ c.toNat ≤ 122 then some (26 + (c.toNat - 97))
  else if 48 ≤ c.toNat ∧ c.toNat ≤ 57 then some (52 + (c.toNat - 48))
  else if c.toNat = 45 then some 62
  else if c.toNat = 95 then some 63
  else none

/-- Encode a byte list as 6-bit values, 3 bytes per 4 sextets, with a short
final group for a trailing 1 or 2 bytes. -/
def encodeGroups : List Nat → List Nat
  | [] => []
  | [b1] => [b1 / 4, b1 % 4 * 16]
  | [b1, b2] => [b1 / 4, b1 % 4 * 16 + b2 / 16, b2 % 16 * 4]
  | b1 :: b2 :: b3 :: rest =>
      (b1 / 4) :: (b1 % 4 * 16 + b2 / 16) :: (b2 % 16 * 4 + b3 / 64) :: (b3 % 64) ::
        encodeGroups rest

/-- Decode a list of 6-bit values back to bytes: 4 sextets per 3 bytes; a
final group of 2 or 3 sextets yields 1 or 2 bytes (unused low bits are
discarded, Go's non-strict behaviour); a final group of 1 sextet is invalid. -/
def decodeGroups : List Nat → Option (List Nat)
  | [] => some []
  | [_] => none
  | [a, b] => some [a * 4 + b / 16]
  | [a, b, c] => some [a * 4 + b / 16, b % 16 * 16 + c / 4]
  | a :: b :: c :: d :: rest =>
      (decodeGroups rest).map
        (fun tail => (a * 4 + b / 16) :: (b % 16 * 16 + c / 4) :: (c % 4 * 64 + d) :: tail)

/-- `EncodeToString` for the no-padding URL encoding. -/
def b64encode (bytes : List Nat) : Str :=
  (encodeGroups bytes).map sextetToChar

/-- Map each character of a (newline-filtered) payload to its sextet. -/
def sextetsOf : List Char → Option (List Nat)
  | [] => some []
  | c :: rest =>
      match charToSextet c with
      | none => none
      | some v => (sextetsOf rest).map (fun tail => v :: tail)

/-- `DecodeString` for the no-padding URL encoding: skip `\r`/`\n`, reject
foreign characters and a length `≡ 1 (mod 4)`. -/
def b64decode (s : Str) : Option (List Nat) :=
  let t := s.filter (fun c => !(c = Char.ofNat 13 ∨ c = Char.ofNat 10 : Bool))
  if t.length % 4 = 1 then none
  else
    match sextetsOf t with
    | none => none
    | some vs => decodeGroups vs

/-! ## Token splitting

`strings.Split(s, sep)` for the registry separator.  `WithSeparator` only ever
stores a single-character separator (the regex `^[.~]$` admits exactly one
character) and the default is `"."`, so the separator is modelled as a `Char`
and splitting is on a single character, which agrees with `strings.Split` for
every reachable registry state. -/

/-- Split on a single character: `splitSep c s` never returns `[]`, returns
`[s]` when `c` does not occur, and one part per occurrence plus one. -/
def splitSep (sep : Char) : Str → List Str
  | [] => [[]]
  | c :: rest =>
      if c = sep then [] :: splitSep sep rest
      else
        match splitSep sep rest with
        | [] => [[c]]
        | g :: gs => (c :: g) :: gs

/-! ## The registry and its operations -/

/-- `^[a-z0-9_-]+$`: nonempty, all characters lowercase alphanumeric,
underscore or hyphen. -/
def pfxChar (c : Char) : Bool :=
  (97 ≤ c.toNat && c.toNat ≤ 122) || (48 ≤ c.toNat && c.toNat ≤ 57) ||
    c.toNat = 95 || c.toNat = 45

/-- `prefixAllowedCharsRegex.MatchString`. -/
def pfxOk (s : Str) : Bool :=
  !s.isEmpty && s.all pfxChar

/-- `type Registry struct`: forward map, reverse map, separator, multi map.
Maps are association lists, newest binding first. -/
structure Registry where
  prefixes : List (Entity × Str)
  reverse : List (Str × Entity)
  sep : Char
  multi : List (Entity × List Entity)
deriving DecidableEq

/-- Decode-side error kinds (the `Err*` sentinel errors of the package). -/
inductive Err
  /-- `ErrEntityMismatch` -/
  | entityMismatch
  /-- `ErrInvalidPrefixedUUIDFormat` -/
  | invalidFormat
  /-- `ErrInvalidUUIDBadBase64` -/
  | badBase64
  /-- `ErrInvalidUUIDFormat` -/
  | invalidUUID
  /-- `ErrUnknownPrefix` -/
  | unknownPfx
  /-- `ErrInvalidSeparator` -/
  | invalidSep
  /-- `ErrNotMultiEntity` -/
  | notMulti
  /-- `ErrUUIDCountMismatch` -/
  | countMismatch
  /-- `ErrEntityOrderMismatch` -/
  | orderMismatch
deriving DecidableEq

/-- Configuration error kinds (the distinct `fmt.Errorf` validation failures
of `NewRegistry` / `AddMultiPrefix`, one constructor per message). -/
inductive ConfigErr
  /-- "entity cannot be NullEntity, use a non-zero value" -/
  | nullEntity
  /-- "prefix must be in lowercase and contain only alphanumeric characters, underscores, and hyphens" -/
  | invalidPfx
  /-- "entity %d is already registered" -/
  | entityExists
  /-- "prefix %q is already registered" -/
  | pfxExists
  /-- "multi type must have at least 2 component entities" -/
  | tooFewComponents
  /-- "component entity %d is not registered in the registry" -/
  | compNotRegistered
deriving DecidableEq

/-- The loop body of `NewRegistry`: validate and insert each `PrefixInfo`
in order, failing on the first invalid one. -/
def registerAll (r : Registry) : List (Entity × Str) → Option Registry
  | [] => some r
  | (e, p) :: rest =>
      if e = NullEntity then none
      else if !pfxOk p then none
      else
        registerAll
          { r with prefixes := (e, p) :: r.prefixes, reverse := (p, e) :: r.reverse }
          rest

/-- `NewRegistry`: build a registry from `PrefixInfo` entries with separator
`"."`; `none` models the `(nil, error)` return on a validation failure. -/
def NewRegistry (infos : List (Entity × Str)) : Option Registry :=
  registerAll ⟨[], [], Char.ofNat 46, []⟩ infos

/-- `WithSeparator`.  The result models Go's observables: the receiver's state
after the call, the returned `*Registry` (`none` = `nil`), and the returned
error.  The regex `^[\.~]$` accepts exactly a one-character string `"."` or
`"~"`. -/
def WithSeparator (r : Registry) (s : Str) : Registry × Option Registry × Option Err :=
  match s with
  | [c] =>
      if c = Char.ofNat 46 ∨ c = Char.ofNat 126 then
        ((let r2 := { r with sep := c }; (r2, some r2, none)) :
          Registry × Option Registry × Option Err)
      else (r, none, some Err.invalidSep)
  | _ => (r, none, some Err.invalidSep)

/-- `Serialize`: `prefix + separator + base64url(uuid bytes)`.  An absent
entity degrades to the empty prefix (Go map zero value). -/
def Serialize (r : Registry) (entity : Entity) (u : UUID) : Str :=
  (alookup r.prefixes entity).getD [] ++ r.sep :: b64encode u.val

/-- `decodePayload`: split on the separator, resolve the prefix, base64-decode
the payload.  Result models `(Entity, []byte, error)`; on error the entity is
`NullEntity` and the byte slice is empty (Go's `nil`). -/
def decodePayload (r : Registry) (s : Str) : Entity × List Nat × Option Err :=
  match splitSep r.sep s with
  | [p, q] =>
      match alookup r.reverse p with
      | none => (NullEntity, [], some Err.unknownPfx)
      | some e =>
          match b64decode q with
          | none => (NullEntity, [], some Err.badBase64)
          | some payload => (e, payload, none)
  | _ => (NullEntity, [], some Err.invalidFormat)

/-- `DeserializeWithEntity`: decode the payload, then parse it as a UUID.
Result models `(Entity, uuid.UUID, error)`. -/
def DeserializeWithEntity (r : Registry) (s : Str) : Entity × UUID × Option Err :=
  match decodePayload r s with
  | (_, _, some e) => (NullEntity, uuidNil, some e)
  | (parsedEntity, payload, none) =>
      match fromBytes payload with
      | none => (NullEntity, uuidNil, some Err.invalidUUID)
      | some u => (parsedEntity, u, none)

/-- `Deserialize`: `DeserializeWithEntity` plus the expected-entity check.
Result models `(uuid.UUID, error)`. -/
def Deserialize (r : Registry) (entity : Entity) (s : Str) : UUID × Option Err :=
  match DeserializeWithEntity r s with
  | (_, _, some e) => (uuidNil, some e)
  | (parsedEntity, u, none) =>
      if parsedEntity = entity then (u, none) else (uuidNil, some Err.entityMismatch)

/-- `MultiPrefixInfo`: composite entity, its prefix, its ordered components. -/
structure MultiInfo where
  entity : Entity
  pfx : Str
  entities : List Entity
deriving DecidableEq

/-- `AddMultiPrefix`: the six validations in source order, then insertion.
Result models Go's observables: the receiver's state after the call (unchanged
on failure) and the returned error. -/
def addMulti (r : Registry) (info : MultiInfo) : Registry × Option ConfigErr :=
  if info.entity = NullEntity then (r, some ConfigErr.nullEntity)
  else if !pfxOk info.pfx then (r, some ConfigErr.invalidPfx)
  else if (alookup r.prefixes info.entity).isSome then (r, some ConfigErr.entityExists)
  else if (alookup r.reverse info.pfx).isSome then (r, some ConfigErr.pfxExists)
  else if info.entities.length < 2 then (r, some ConfigErr.tooFewComponents)
  else if !info.entities.all (fun e => (alookup r.prefixes e).isSome) then
    (r, some ConfigErr.compNotRegistered)
  else
    ({ r with
        prefixes := (info.entity, info.pfx) :: r.prefixes,
        reverse := (info.pfx, info.entity) :: r.reverse,
        multi := (info.entity, info.entities) :: r.multi },
      none)

/-- `SerializeMulti`: arity and positional-entity checks, then one token whose
payload is the concatenation of the pairs' UUID bytes.  Result models
`(string, error)`, `""` on error. -/
def SerializeMulti (r : Registry) (entity : Entity) (pairs : List (Entity × UUID)) :
    Str × Option Err :=
  match alookup r.multi entity with
  | none => ([], some Err.notMulti)
  | some components =>
      if pairs.length ≠ components.length then ([], some Err.countMismatch)
      else if !(pairs.zip components).all (fun pc => pc.1.1 = pc.2) then
        ([], some Err.orderMismatch)
      else
        ((alookup r.prefixes entity).getD [] ++
            r.sep :: b64encode (pairs.map (fun pr => pr.2.val)).flatten,
          none)

/-- The write loop of `DeserializeMulti`: parse consecutive 16-byte chunks of
the payload into the target slots, in order, stopping at the first chunk that
is not a valid UUID (slots before it are already written, later ones keep
their previous contents, exactly as with Go's pointer writes). -/
def writeChunks : List UUID → List Nat → List UUID × Option Err
  | [], _ => ([], none)
  | slot :: slots, payload =>
      match fromBytes (payload.take 16) with
      | none => (slot :: slots, some Err.invalidUUID)
      | some u =>
          let rest := writeChunks slots (payload.drop 16)
          (u :: rest.1, rest.2)

/-- `DeserializeMulti`: decode, check entity, arity, positional order and
payload length, then write each chunk.  A target is an
`EntityUUIDPtr`: its declared entity plus the current contents of its UUID
slot; the result returns the final slot contents and the error. -/
def DeserializeMulti (r : Registry) (entity : Entity) (s : Str)
    (targets : List (Entity × UUID)) : List UUID × Option Err :=
  let slots := targets.map (fun t => t.2)
  match decodePayload r s with
  | (_, _, some e) => (slots, some e)
  | (parsedEntity, payload, none) =>
      if parsedEntity ≠ entity then (slots, some Err.entityMismatch)
      else
        match alookup r.multi entity with
        | none => (slots, some Err.notMulti)
        | some components =>
            if targets.length ≠ components.length then (slots, some Err.countMismatch)
            else if !(targets.zip components).all (fun tc => tc.1.1 = tc.2) then
              (slots, some Err.orderMismatch)
            else if payload.length ≠ components.length * 16 then
              (slots, some Err.invalidUUID)
            else writeChunks slots payload

/-- Registries reachable through the public API: built by `NewRegistry`, then
extended by any sequence of successful `AddMultiPrefix` / `WithSeparator`
calls. -/
inductive Reachable : Registry → Prop
  | base (infos : List (Entity × Str)) (r : Registry) :
      NewRegistry infos = some r → Reachable r
  | addStep (r : Registry) (info : MultiInfo) (r2 : Registry) :
      Reachable r → addMulti r info = (r2, none) → Reachable r2
  | sepStep (r : Registry) (s : Str) (r2 : Registry) (ret : Option Registry) :
      Reachable r → WithSeparator r s = (r2, ret, none) → Reachable r2

/-! ## Lemmas about the base64url codec -/

theorem charToSextet_sextetToChar :
    ∀ v : Nat, v < 64 → charToSextet (sextetToChar v) = some v := by
  decide

theorem sextetToChar_ne_crlf :
    ∀ v : Nat, v < 64 →
      sextetToChar v ≠ Char.ofNat 13 ∧ sextetToChar v ≠ Char.ofNat 10 := by
  decide

theorem sextetToChar_ne_dot_tilde :
    ∀ v : Nat, v < 64 →
      sextetToChar v ≠ Char.ofNat 46 ∧ sextetToChar v ≠ Char.ofNat 126 := by
  decide

theorem encodeGroups_lt64 (l : List Nat) (hl : ∀ b ∈ l, b < 256) :
    ∀ v ∈ encodeGroups l, v < 64 := by
  induction l using encodeGroups.induct with
  | case1 => intro v hv; simp [encodeGroups] at hv
  | case2 b1 =>
      intro v hv
      have h1 := hl b1 (by simp)
      simp [encodeGroups] at hv
      rcases hv with h | h <;> omega
  | case3 b1 b2 =>
      intro v hv
      have h1 := hl b1 (by simp)
      have h2 := hl b2 (by simp)
      simp [encodeGroups] at hv
      rcases hv with h | h | h <;> omega
  | case4 b1 b2 b3 rest ih =>
      intro v hv
      have h1 := hl b1 (by simp)
      have h2 := hl b2 (by simp)
      have h3 := hl b3 (by simp)
      simp only [encodeGroups, List.mem_cons] at hv
      rcases hv with h | h | h | h | h
      · omega
      · omega
      · omega
      · omega
      · exact ih (fun b hb => hl b (by simp [hb])) v h

theorem decodeGroups_encodeGroups (l : List Nat) (hl : ∀ b ∈ l, b < 256) :
    decodeGroups (encodeGroups l) = some l := by
  induction l using encodeGroups.induct with
  | case1 => rfl
  | case2 b1 =>
      have h1 := hl b1 (by simp)
      simp only [encodeGroups, decodeGroups]
      have e1 : b1 / 4 * 4 + b1 % 4 * 16 / 16 = b1 := by omega
      rw [e1]
  | case3 b1 b2 =>
      have h1 := hl b1 (by simp)
      have h2 := hl b2 (by simp)
      simp only [encodeGroups, decodeGroups]
      have e1 : b1 / 4 * 4 + (b1 % 4 * 16 + b2 / 16) / 16 = b1 := by omega
      have e2 : (b1 % 4 * 16 + b2 / 16) % 16 * 16 + b2 % 16 * 4 / 4 = b2 := by omega
      rw [e1, e2]
  | case4 b1 b2 b3 rest ih =>
      have h1 := hl b1 (by simp)
      have h2 := hl b2 (by simp)
      have h3 := hl b3 (by simp)
      have hrest : ∀ b ∈ rest, b < 256 := fun b hb => hl b (by simp [hb])
      simp only [encodeGroups, decodeGroups, ih hrest, Option.map_some']
      have e1 : b1 / 4 * 4 + (b1 % 4 * 16 + b2 / 16) / 16 = b1 := by omega
      have e2 : (b1 % 4 * 16 + b2 / 16) % 16 * 16 + (b2 % 16 * 4 + b3 / 64) / 4 = b2 := by
        omega
      have e3 : (b2 % 16 * 4 + b3 / 64) % 4 * 64 + b3 % 64 = b3 := by omega
      rw [e1, e2, e3]

theorem encodeGroups_length_mod4 (l : List Nat) :
    (encodeGroups l).length % 4 ≠ 1 := by
  induction l using encodeGroups.induct with
  | case1 => simp [encodeGroups]
  | case2 b1 => simp [encodeGroups]
  | case3 b1 b2 => simp [encodeGroups]
  | case4 b1 b2 b3 rest ih =>
      simp only [encodeGroups, List.length_cons]
      omega

theorem sextetsOf_map_sextetToChar (vs : List Nat) (h : ∀ v ∈ vs, v < 64) :
    sextetsOf (vs.map sextetToChar) = some vs := by
  induction vs with
  | nil => rfl
  | cons v rest ih =>
      have hv := h v (by simp)
      simp only [List.map_cons, sextetsOf, charToSextet_sextetToChar v hv,
        ih (fun w hw => h w (by simp [hw])), Option.map_some']

theorem sextetsOf_lt64 (t : List Char) (vs : List Nat) (h : sextetsOf t = some vs) :
    ∀ v ∈ vs, v < 64 := by
  induction t generalizing vs with
  | nil =>
      simp only [sextetsOf, Option.some_inj] at h
      subst h; simp
  | cons c rest ih =>
      simp only [sextetsOf] at h
      match hc : charToSextet c with
      | none => rw [hc] at h; exact absurd h (by simp)
      | some v =>
          rw [hc] at h
          match hr : sextetsOf rest with
          | none => rw [hr] at h; exact absurd h (by simp)
          | some tail =>
              rw [hr] at h
              simp only [Option.map_some', Option.some_inj] at h
              subst h
              intro w hw
              rcases List.mem_cons.mp hw with h | h
              · subst h
                revert hc
                unfold charToSextet
                split
                · intro hh; simp only [Option.some_inj] at hh; omega
                · split
                  · intro hh; simp only [Option.some_inj] at hh; omega
                  · split
                    · intro hh; simp only [Option.some_inj] at hh; omega
                    · split
                      · intro hh; simp only [Option.some_inj] at hh; omega
                      · split
                        · intro hh; simp only [Option.some_inj] at hh; omega
                        · intro hh; exact absurd hh (by simp)
              · exact ih tail hr w h

theorem decodeGroups_lt256 (vs : List Nat) (l : List Nat)
    (hvs : ∀ v ∈ vs, v < 64) (h : decodeGroups vs = some l) :
    ∀ b ∈ l, b < 256 := by
  induction vs using decodeGroups.induct generalizing l with
  | case1 =>
      simp only [decodeGroups, Option.some_inj] at h
      subst h; simp
  | case2 v =>
      exact absurd h (by simp [decodeGroups])
  | case3 a b =>
      have ha := hvs a (by simp)
      have hb := hvs b (by simp)
      simp only [decodeGroups, Option.some_inj] at h
      subst h
      intro w hw
      simp only [List.mem_singleton] at hw
      omega
  | case4 a b c =>
      have ha := hvs a (by simp)
      have hb := hvs b (by simp)
      have hc := hvs c (by simp)
      simp only [decodeGroups, Option.some_inj] at h
      subst h
      intro w hw
      simp only [List.mem_cons, List.mem_singleton] at hw
      rcases hw with h | h | h
      · omega
      · omega
      · simp at h
  | case5 a b c d rest ih =>
      have ha := hvs a (by simp)
      have hb := hvs b (by simp)
      have hc := hvs c (by simp)
      have hd := hvs d (by simp)
      simp only [decodeGroups] at h
      match hr : decodeGroups rest with
      | none => rw [hr] at h; exact absurd h (by simp)
      | some tail =>
          rw [hr] at h
          simp only [Option.map_some', Option.some_inj] at h
          subst h
          have htail := ih tail (fun v hv => hvs v (by simp [hv])) hr
          intro w hw
          rcases List.mem_cons.mp hw with h | hw2
          · omega
          rcases List.mem_cons.mp hw2 with h | hw3
          · omega
          rcases List.mem_cons.mp hw3 with h | h
          · omega
          · exact htail w h

theorem b64encode_mem_lt64 (l : List Nat) (hl : ∀ b ∈ l, b < 256) :
    ∀ c ∈ b64encode l, ∃ v, v < 64 ∧ c = sextetToChar v := by
  intro c hc
  simp only [b64encode, List.mem_map] at hc
  obtain ⟨v, hv, rfl⟩ := hc
  exact ⟨v, encodeGroups_lt64 l hl v hv, rfl⟩

theorem b64decode_b64encode (l : List Nat) (hl : ∀ b ∈ l, b < 256) :
    b64decode (b64encode l) = some l := by
  unfold b64decode
  have hfilter :
      (b64encode l).filter
        (fun c => !(c = Char.ofNat 13 ∨ c = Char.ofNat 10 : Bool)) = b64encode l := by
    apply List.filter_eq_self.mpr
    intro c hc
    obtain ⟨v, hv, rfl⟩ := b64encode_mem_lt64 l hl c hc
    have := sextetToChar_ne_crlf v hv
    simp [this.1, this.2]
  rw [hfilter]
  simp only [b64encode, List.length_map]
  rw [if_neg (encodeGroups_length_mod4 l)]
  rw [sextetsOf_map_sextetToChar (encodeGroups l) (encodeGroups_lt64 l hl)]
  exact decodeGroups_encodeGroups l hl

theorem b64decode_lt256 (s : Str) (l : List Nat) (h : b64decode s = some l) :
    ∀ b ∈ l, b < 256 := by
  unfold b64decode at h
  set t := s.filter (fun c => !(c = Char.ofNat 13 ∨ c = Char.ofNat 10 : Bool)) with ht
  by_cases hlen : t.length % 4 = 1
  · rw [if_pos hlen] at h; exact absurd h (by simp)
  · rw [if_neg hlen] at h
    match hs : sextetsOf t with
    | none => rw [hs] at h; exact absurd h (by simp)
    | some vs =>
        rw [hs] at h
        exact decodeGroups_lt256 vs l (sextetsOf_lt64 t vs hs) h

/-! ## Lemmas about splitting -/

theorem splitSep_not_mem (sep : Char) (s : Str) (h : sep ∉ s) :
    splitSep sep s = [s] := by
  induction s with
  | nil => rfl
  | cons c rest ih =>
      have hc : ¬c = sep := fun hh => h (by simp [hh])
      have hrest : sep ∉ rest := fun hh => h (by simp [hh])
      simp only [splitSep, if_neg hc, ih hrest]

theorem splitSep_append (sep : Char) (p q : Str) (hp : sep ∉ p) :
    splitSep sep (p ++ sep :: q) = p :: splitSep sep q := by
  induction p with
  | nil => simp [splitSep]
  | cons c rest ih =>
      have hc : ¬c = sep := fun hh => hp (by simp [hh])
      have hrest : sep ∉ rest := fun hh => hp (by simp [hh])
      show splitSep sep (c :: (rest ++ sep :: q)) = _
      simp only [splitSep, if_neg hc]
      rw [ih hrest]

theorem splitSep_length (sep : Char) (s : Str) :
    (splitSep sep s).length = s.count sep + 1 := by
  induction s with
  | nil => simp [splitSep]
  | cons c rest ih =>
      by_cases hc : c = sep
      · subst hc
        have hstep : splitSep c (c :: rest) = [] :: splitSep c rest := by
          simp [splitSep]
        rw [hstep, List.length_cons, ih, List.count_cons_self]
      · have hstep :
            splitSep sep (c :: rest) =
              match splitSep sep rest with
              | [] => [[c]]
              | g :: gs => (c :: g) :: gs := by
          simp only [splitSep, if_neg hc]
        have hcount : (c :: rest).count sep = rest.count sep := by
          simp [List.count_cons, hc]
        rw [hstep, hcount]
        match hsplit : splitSep sep rest with
        | [] => rw [hsplit] at ih; simp at ih
        | g :: gs =>
            rw [hsplit] at ih
            simp only [List.length_cons] at ih ⊢
            omega

/-! ## Lemmas about byte parsing -/

theorem fromBytes_val (u : UUID) : fromBytes u.val = some u := by
  unfold fromBytes
  rw [dif_pos u.property]
  rfl

theorem fromBytes_of_valid (l : List Nat) (h16 : l.length = 16)
    (h256 : ∀ b ∈ l, b < 256) : fromBytes l = some ⟨l, h16, h256⟩ := by
  unfold fromBytes
  rw [dif_pos ⟨h16, h256⟩]

theorem uuid_val_length (u : UUID) : u.val.length = 16 := u.property.1

theorem uuid_val_lt256 (u : UUID) : ∀ b ∈ u.val, b < 256 := u.property.2

/-- The separator of a reachable registry is never a prefix character. -/
theorem pfxChar_ne_sep (c : Char) (h : pfxChar c = true) :
    c ≠ Char.ofNat 46 ∧ c ≠ Char.ofNat 126 := by
  constructor
  · intro hh; subst hh; simp [pfxChar] at h
  · intro hh; subst hh; simp [pfxChar] at h

theorem sep_not_mem_pfx (p : Str) (hp : pfxOk p = true) (c : Char)
    (hc : c = Char.ofNat 46 ∨ c = Char.ofNat 126) : c ∉ p := by
  intro hmem
  have hall : pfxChar c = true := by
    have := (Bool.and_eq_true _ _).mp hp
    exact List.all_eq_true.mp this.2 c hmem
  have := pfxChar_ne_sep c hall
  rcases hc with h | h
  · exact this.1 h
  · exact this.2 h

theorem sep_not_mem_b64encode (l : List Nat) (hl : ∀ b ∈ l, b < 256) (c : Char)
    (hc : c = Char.ofNat 46 ∨ c = Char.ofNat 126) : c ∉ b64encode l := by
  intro hmem
  obtain ⟨v, hv, rfl⟩ := b64encode_mem_lt64 l hl c hmem
  have := sextetToChar_ne_dot_tilde v hv
  rcases hc with h | h
  · exact this.1 h
  · exact this.2 h

/-! ## The reachability invariant -/

/-- The state invariant of every reachable registry: a valid separator, only
valid prefixes, `NullEntity` in neither map, and every composite entity's own
prefix resolving back to it in both directions. -/
def RegInv (r : Registry) : Prop :=
  (r.sep = Char.ofNat 46 ∨ r.sep = Char.ofNat 126)
  ∧ (∀ e p, alookup r.prefixes e = some p → pfxOk p = true)
  ∧ alookup r.prefixes NullEntity = none
  ∧ (∀ p e, alookup r.reverse p = some e → e ≠ NullEntity)
  ∧ (∀ e comps, alookup r.multi e = some comps →
      ∃ p, alookup r.prefixes e = some p ∧ alookup r.reverse p = some e)

theorem registerAll_inv (l : List (Entity × Str)) (r0 r : Registry)
    (hmulti : r0.multi = [])
    (hsep : r0.sep = Char.ofNat 46 ∨ r0.sep = Char.ofNat 126)
    (hpfx : ∀ e p, alookup r0.prefixes e = some p → pfxOk p = true)
    (hnull : alookup r0.prefixes NullEntity = none)
    (hrev : ∀ p e, alookup r0.reverse p = some e → e ≠ NullEntity)
    (h : registerAll r0 l = some r) : RegInv r := by
  induction l generalizing r0 with
  | nil =>
      simp only [registerAll, Option.some_inj] at h
      subst h
      refine ⟨hsep, hpfx, hnull, hrev, ?_⟩
      intro e comps hc
      rw [hmulti] at hc
      simp [alookup] at hc
  | cons ep rest ih =>
      obtain ⟨e, p⟩ := ep
      simp only [registerAll] at h
      by_cases he : e = NullEntity
      · rw [if_pos he] at h; exact absurd h (by simp)
      · rw [if_neg he] at h
        by_cases hp : pfxOk p = true
        · rw [hp] at h
          simp only [Bool.not_true, Bool.false_eq_true, if_false] at h
          refine ih
            { r0 with
                prefixes := (e, p) :: r0.prefixes, reverse := (p, e) :: r0.reverse }
            hmulti hsep ?_ ?_ ?_ h
          · intro e2 p2 hl
            simp only [alookup] at hl
            by_cases he2 : e2 = e
            · rw [if_pos he2] at hl
              simp only [Option.some_inj] at hl
              subst hl; exact hp
            · rw [if_neg he2] at hl
              exact hpfx e2 p2 hl
          · simp only [alookup]
            rw [if_neg (fun hh => he hh.symm)]
            exact hnull
          · intro p2 e2 hl
            simp only [alookup] at hl
            by_cases hp2 : p2 = p
            · rw [if_pos hp2] at hl
              simp only [Option.some_inj] at hl
              subst hl; exact he
            · rw [if_neg hp2] at hl
              exact hrev p2 e2 hl
        · simp only [Bool.not_eq_true] at hp
          rw [hp] at h
          simp at h

theorem NewRegistry_inv (infos : List (Entity × Str)) (r : Registry)
    (h : NewRegistry infos = some r) : RegInv r := by
  refine registerAll_inv infos _ r rfl (Or.inl rfl) ?_ ?_ ?_ h
  · intro e p hl; simp [alookup] at hl
  · rfl
  · intro p e hl; simp [alookup] at hl

theorem addMulti_inv (r : Registry) (info : MultiInfo) (r2 : Registry)
    (hinv : RegInv r) (h : addMulti r info = (r2, none)) : RegInv r2 := by
  obtain ⟨hsep, hpfx, hnull, hrev, hmulti⟩ := hinv
  unfold addMulti at h
  by_cases h1 : info.entity = NullEntity
  · rw [if_pos h1] at h; exact absurd (congrArg Prod.snd h) (by simp)
  rw [if_neg h1] at h
  by_cases h2 : pfxOk info.pfx = true
  · rw [h2] at h
    simp only [Bool.not_true, Bool.false_eq_true, if_false] at h
    by_cases h3 : (alookup r.prefixes info.entity).isSome
    · rw [if_pos h3] at h; exact absurd (congrArg Prod.snd h) (by simp)
    rw [if_neg h3] at h
    by_cases h4 : (alookup r.reverse info.pfx).isSome
    · rw [if_pos h4] at h; exact absurd (congrArg Prod.snd h) (by simp)
    rw [if_neg h4] at h
    by_cases h5 : info.entities.length < 2
    · rw [if_pos h5] at h; exact absurd (congrArg Prod.snd h) (by simp)
    rw [if_neg h5] at h
    by_cases h6 : info.entities.all (fun e => (alookup r.prefixes e).isSome) = true
    · rw [h6] at h
      simp only [Bool.not_true, Bool.false_eq_true, if_false] at h
      have hr2 := congrArg Prod.fst h
      simp only at hr2
      subst hr2
      have hpn : alookup r.prefixes info.entity = none := by
        cases hh : alookup r.prefixes info.entity
        · rfl
        · rw [hh] at h3; simp at h3
      have hrn : alookup r.reverse info.pfx = none := by
        cases hh : alookup r.reverse info.pfx
        · rfl
        · rw [hh] at h4; simp at h4
      refine ⟨hsep, ?_, ?_, ?_, ?_⟩
      · intro e p hl
        simp only [alookup] at hl
        by_cases he : e = info.entity
        · rw [if_pos he] at hl
          simp only [Option.some_inj] at hl
          subst hl; exact h2
        · rw [if_neg he] at hl
          exact hpfx e p hl
      · simp only [alookup]
        rw [if_neg (fun hh => h1 hh.symm)]
        exact hnull
      · intro p e hl
        simp only [alookup] at hl
        by_cases hp : p = info.pfx
        · rw [if_pos hp] at hl
          simp only [Option.some_inj] at hl
          subst hl; exact h1
        · rw [if_neg hp] at hl
          exact hrev p e hl
      · intro e comps hc
        simp only [alookup] at hc
        by_cases he : e = info.entity
        · subst he
          refine ⟨info.pfx, ?_, ?_⟩
          · simp [alookup]
          · simp [alookup]
        · rw [if_neg he] at hc
          obtain ⟨p, hfp, hrp⟩ := hmulti e comps hc
          refine ⟨p, ?_, ?_⟩
          · simp only [alookup]
            rw [if_neg he]
            exact hfp
          · simp only [alookup]
            have hpne : ¬p = info.pfx := by
              intro hh
              subst hh
              rw [hrp] at hrn
              exact absurd hrn (by simp)
            rw [if_neg hpne]
            exact hrp
    · simp only [Bool.not_eq_true] at h6
      rw [h6] at h
      simp only [Bool.not_false, if_true] at h
      exact absurd (congrArg Prod.snd h) (by simp)
  · simp only [Bool.not_eq_true] at h2
    rw [h2] at h
    simp only [Bool.not_false, if_true] at h
    exact absurd (congrArg Prod.snd h) (by simp)

theorem WithSeparator_inv (r : Registry) (s : Str) (r2 : Registry)
    (ret : Option Registry) (hinv : RegInv r)
    (h : WithSeparator r s = (r2, ret, none)) : RegInv r2 := by
  obtain ⟨hsep, hpfx, hnull, hrev, hmulti⟩ := hinv
  rcases s with _ | ⟨c, _ | ⟨c2, srest⟩⟩
  · simp only [WithSeparator] at h
    exact absurd (congrArg (fun t => t.2.2) h) (by simp)
  · simp only [WithSeparator] at h
    by_cases hc : c = Char.ofNat 46 ∨ c = Char.ofNat 126
    · rw [if_pos hc] at h
      have hr2 := congrArg Prod.fst h
      simp only at hr2
      subst hr2
      exact ⟨hc, hpfx, hnull, hrev, hmulti⟩
    · rw [if_neg hc] at h
      exact absurd (congrArg (fun t => t.2.2) h) (by simp)
  · simp only [WithSeparator] at h
    exact absurd (congrArg (fun t => t.2.2) h) (by simp)

theorem Reachable_inv (r : Registry) (h : Reachable r) : RegInv r := by
  induction h with
  | base infos r hnew => exact NewRegistry_inv infos r hnew
  | addStep r info r2 _ hadd ih => exact addMulti_inv r info r2 ih hadd
  | sepStep r s r2 ret _ hsep ih => exact WithSeparator_inv r s r2 ret ih hsep

/-! ## Round-trip machinery -/

/-- Decoding a freshly serialized token recovers the entity resolved through
the reverse map and the exact payload bytes. -/
theorem decodePayload_serialize (r : Registry)
    (hsep : r.sep = Char.ofNat 46 ∨ r.sep = Char.ofNat 126)
    (p : Str) (hp : pfxOk p = true) (bytes : List Nat) (hb : ∀ b ∈ bytes, b < 256)
    (e : Entity) (hrev : alookup r.reverse p = some e) :
    decodePayload r (p ++ r.sep :: b64encode bytes) = (e, bytes, none) := by
  have hsp : r.sep ∉ p := sep_not_mem_pfx p hp r.sep hsep
  have hse : r.sep ∉ b64encode bytes := sep_not_mem_b64encode bytes hb r.sep hsep
  have hsplit : splitSep r.sep (p ++ r.sep :: b64encode bytes) = [p, b64encode bytes] := by
    rw [splitSep_append r.sep p (b64encode bytes) hsp,
      splitSep_not_mem r.sep (b64encode bytes) hse]
  unfold decodePayload
  rw [hsplit]
  simp only [hrev, b64decode_b64encode bytes hb]

/-! ## Concrete fixtures for witnesses and counterexamples -/

/-- The UUID `0195e37b-f93f-7518-a9ac-a2be68463c7e` of the README example. -/
def exUUID : UUID :=
  ⟨[0x01, 0x95, 0xe3, 0x7b, 0xf9, 0x3f, 0x75, 0x18,
    0xa9, 0xac, 0xa2, 0xbe, 0x68, 0x46, 0x3c, 0x7e], by decide⟩

/-- The registry produced by `NewRegistry` for the single entry `(1, "user")`. -/
def reg1 : Registry :=
  ⟨[((1 : Int), "user".toList)], [("user".toList, (1 : Int))], Char.ofNat 46, []⟩

/-- The registry produced by `NewRegistry` for `(1, "user"), (2, "user")`:
a duplicate prefix, which `NewRegistry` accepts (last registration wins in the
reverse map). -/
def cexReg : Registry :=
  ⟨[((2 : Int), "user".toList), ((1 : Int), "user".toList)],
    [("user".toList, (2 : Int)), ("user".toList, (1 : Int))], Char.ofNat 46, []⟩

/-! ## Claim C1 -/

/-- C1 as stated is false: `NewRegistry` accepts duplicate prefixes, and for a
registry where entities 1 and 2 both registered prefix `user`, entity 1 is
registered (it is in the forward map of a reachable registry) yet
`Deserialize(1, Serialize(1, u))` fails with `ErrEntityMismatch` and
`DeserializeWithEntity(Serialize(1, u))` resolves entity 2, not 1. -/
theorem c1_counterexample :
    NewRegistry [((1 : Int), "user".toList), ((2 : Int), "user".toList)] = some cexReg
    ∧ Reachable cexReg
    ∧ alookup cexReg.prefixes 1 = some ("user".toList)
    ∧ Deserialize cexReg 1 (Serialize cexReg 1 exUUID) =
        (uuidNil, some Err.entityMismatch)
    ∧ DeserializeWithEntity cexReg (Serialize cexReg 1 exUUID) = (2, exUUID, none) :=
  ⟨by decide,
    Reachable.base [((1 : Int), "user".toList), ((2 : Int), "user".toList)] cexReg
      (by decide),
    by decide, by decide, by decide⟩

/-- C1 (amended): for every reachable registry and registered entity whose
prefix still resolves back to that entity in the reverse map (which holds
whenever no other registration reuses the same prefix), serialize-then-
deserialize recovers the entity and UUID exactly, with no error. -/
theorem c1_roundtrip (r : Registry) (hr : Reachable r) (e : Entity) (u : UUID)
    (p : Str) (hp : alookup r.prefixes e = some p)
    (hrev : alookup r.reverse p = some e) :
    DeserializeWithEntity r (Serialize r e u) = (e, u, none)
    ∧ Deserialize r e (Serialize r e u) = (u, none) := by
  obtain ⟨hsep, hpfx, _, _, _⟩ := Reachable_inv r hr
  have hpok : pfxOk p = true := hpfx e p hp
  have hser : Serialize r e u = p ++ r.sep :: b64encode u.val := by
    unfold Serialize
    rw [hp]
    rfl
  have hdec : decodePayload r (Serialize r e u) = (e, u.val, none) := by
    rw [hser]
    exact decodePayload_serialize r hsep p hpok u.val (uuid_val_lt256 u) e hrev
  have hwith : DeserializeWithEntity r (Serialize r e u) = (e, u, none) := by
    unfold DeserializeWithEntity
    rw [hdec]
    simp only [fromBytes_val u]
  refine ⟨hwith, ?_⟩
  unfold Deserialize
  rw [hwith]
  simp

/-- Witness for C1 (amended): the single-entry registry for `(1, "user")` is
reachable, entity 1 round-trips the README UUID exactly. -/
theorem c1_witness :
    Reachable reg1
    ∧ DeserializeWithEntity reg1 (Serialize reg1 1 exUUID) = (1, exUUID, none)
    ∧ Deserialize reg1 1 (Serialize reg1 1 exUUID) = (exUUID, none) :=
  have hre : Reachable reg1 :=
    Reachable.base [((1 : Int), "user".toList)] reg1 (by decide)
  have hrt := c1_roundtrip reg1 hre 1 exUUID ("user".toList) (by decide) (by decide)
  ⟨hre, hrt.1, hrt.2⟩

/-! ## Claim C7 -/

/-- C7: in a registry registering entity 1 under prefix `user` with separator
`.`, the README UUID serializes to exactly the 27-character token
`user.AZXje_k_dRiprKK-aEY8fg`. -/
theorem c7_concrete_token :
    NewRegistry [((1 : Int), "user".toList)] = some reg1
    ∧ reg1.sep = Char.ofNat 46
    ∧ Serialize reg1 1 exUUID = "user.AZXje_k_dRiprKK-aEY8fg".toList
    ∧ (Serialize reg1 1 exUUID).length = 27 := by
  refine ⟨by decide, rfl, by decide, by decide⟩

/-! ## Claim C6 -/

/-- C6: `WithSeparator` succeeds exactly when the argument is the
one-character string `.` or `~`; on failure it returns `ErrInvalidSeparator`
and the receiver keeps all of its state; on success the receiver's separator
becomes that character, everything else is unchanged, the same registry is
returned, and subsequent `Serialize` calls use the new separator. -/
theorem c6_withSeparator (r : Registry) (s : Str) :
    ((WithSeparator r s).2.2 = none ↔
      s = [Char.ofNat 46] ∨ s = [Char.ofNat 126])
    ∧ ((WithSeparator r s).2.2 ≠ none →
        WithSeparator r s = (r, none, some Err.invalidSep))
    ∧ (∀ c : Char, s = [c] → (c = Char.ofNat 46 ∨ c = Char.ofNat 126) →
        WithSeparator r s =
          ({ r with sep := c }, some { r with sep := c }, none)
        ∧ ∀ (e : Entity) (u : UUID),
            Serialize { r with sep := c } e u =
              (alookup r.prefixes e).getD [] ++ c :: b64encode u.val) := by
  rcases s with _ | ⟨c, _ | ⟨c2, srest⟩⟩
  · refine ⟨by simp [WithSeparator], fun _ => by simp [WithSeparator], ?_⟩
    intro c hc
    exact absurd hc (by simp)
  · by_cases hc : c = Char.ofNat 46 ∨ c = Char.ofNat 126
    · refine ⟨?_, ?_, ?_⟩
      · constructor
        · intro _
          rcases hc with h | h
          · exact Or.inl (by rw [h])
          · exact Or.inr (by rw [h])
        · intro _
          simp only [WithSeparator, if_pos hc]
      · intro hn
        simp only [WithSeparator, if_pos hc] at hn
        exact absurd rfl hn
      · intro c3 hc3 _
        have hcc : c3 = c := by
          injection hc3 with h1 _
          exact h1.symm
        subst hcc
        refine ⟨by simp only [WithSeparator, if_pos hc], ?_⟩
        intro e u
        unfold Serialize
        rfl
    · refine ⟨?_, ?_, ?_⟩
      · simp only [WithSeparator, if_neg hc]
        constructor
        · intro hh; exact absurd hh (by simp)
        · intro hh
          rcases hh with h | h
          · injection h with h1 _
            exact absurd (Or.inl h1) hc
          · injection h with h1 _
            exact absurd (Or.inr h1) hc
      · intro _
        simp only [WithSeparator, if_neg hc]
      · intro c3 hc3 hcv
        have hcc : c3 = c := by
          injection hc3 with h1 _
          exact h1.symm
        subst hcc
        exact absurd hcv hc
  · refine ⟨by simp [WithSeparator], fun _ => by simp [WithSeparator], ?_⟩
    intro c3 hc3
    exact absurd hc3 (by simp)

/-- Witness for C6 at concrete inputs: `~` succeeds and changes the separator
used by `Serialize`; `:` fails with `ErrInvalidSeparator` leaving the
receiver as it was. -/
theorem c6_witness :
    WithSeparator reg1 [Char.ofNat 126] =
      ({ reg1 with sep := Char.ofNat 126 },
        some { reg1 with sep := Char.ofNat 126 }, none)
    ∧ Serialize { reg1 with sep := Char.ofNat 126 } 1 exUUID =
        "user".toList ++ Char.ofNat 126 :: b64encode exUUID.val
    ∧ WithSeparator reg1 [Char.ofNat 58] = (reg1, none, some Err.invalidSep) :=
  have h6 := c6_withSeparator reg1 [Char.ofNat 126]
  have hok := (h6.2.2 (Char.ofNat 126) rfl (Or.inr rfl))
  have h58 := c6_withSeparator reg1 [Char.ofNat 58]
  have hbad : (WithSeparator reg1 [Char.ofNat 58]).2.2 ≠ none := by
    intro hh
    rcases h58.1.mp hh with h | h <;> exact absurd h (by decide)
  ⟨hok.1, by rw [hok.2 1 exUUID]; decide, h58.2.1 hbad⟩

/-! ## Claim C10 -/

/-- C10: on an invalid separator, the registry value returned by
`WithSeparator` is `nil` (`none`), not the unchanged receiver, so chaining on
it dereferences `nil` rather than silently keeping the old separator. -/
theorem c10_withSeparator_nil (r : Registry) (s : Str)
    (h : ¬(s = [Char.ofNat 46] ∨ s = [Char.ofNat 126])) :
    (WithSeparator r s).2.1 = none
    ∧ (WithSeparator r s).2.2 = some Err.invalidSep := by
  rcases s with _ | ⟨c, _ | ⟨c2, srest⟩⟩
  · exact ⟨by simp [WithSeparator], by simp [WithSeparator]⟩
  · by_cases hc : c = Char.ofNat 46 ∨ c = Char.ofNat 126
    · exfalso
      rcases hc with hh | hh
      · exact h (Or.inl (by rw [hh]))
      · exact h (Or.inr (by rw [hh]))
    · exact ⟨by simp only [WithSeparator, if_neg hc],
        by simp only [WithSeparator, if_neg hc]⟩
  · exact ⟨by simp [WithSeparator], by simp [WithSeparator]⟩

/-- Witness for C10: calling `WithSeparator` with `":"` returns a `nil`
registry pointer alongside `ErrInvalidSeparator`. -/
theorem c10_witness :
    (WithSeparator reg1 [Char.ofNat 58]).2.1 = none
    ∧ (WithSeparator reg1 [Char.ofNat 58]).2.2 = some Err.invalidSep :=
  c10_withSeparator_nil reg1 [Char.ofNat 58] (by decide)

/-! ## decodePayload case lemmas -/

theorem decodePayload_not_two (r : Registry) (s : Str)
    (h : ∀ p q, splitSep r.sep s ≠ [p, q]) :
    decodePayload r s = (NullEntity, [], some Err.invalidFormat) := by
  unfold decodePayload
  rcases hs : splitSep r.sep s with _ | ⟨p, _ | ⟨q, _ | ⟨x, rest⟩⟩⟩
  · rfl
  · rfl
  · exact absurd hs (h p q)
  · rfl

theorem decodePayload_two (r : Registry) (s : Str) (p q : Str)
    (h : splitSep r.sep s = [p, q]) :
    decodePayload r s =
      match alookup r.reverse p with
      | none => (NullEntity, [], some Err.unknownPfx)
      | some e =>
          match b64decode q with
          | none => (NullEntity, [], some Err.badBase64)
          | some payload => (e, payload, none) := by
  unfold decodePayload
  rw [h]

theorem decodePayload_ok (r : Registry) (s : Str) (e : Entity)
    (payload : List Nat) (h : decodePayload r s = (e, payload, none)) :
    ∃ p q, splitSep r.sep s = [p, q] ∧ alookup r.reverse p = some e ∧
      b64decode q = some payload := by
  rcases hs : splitSep r.sep s with _ | ⟨p, _ | ⟨q, _ | ⟨x, rest⟩⟩⟩
  · rw [decodePayload_not_two r s (by rw [hs]; intro a b hh; simp at hh)] at h
    exact absurd (congrArg (fun t => t.2.2) h) (by simp)
  · rw [decodePayload_not_two r s (by rw [hs]; intro a b hh; simp at hh)] at h
    exact absurd (congrArg (fun t => t.2.2) h) (by simp)
  · rw [decodePayload_two r s p q hs] at h
    refine ⟨p, q, rfl, ?_⟩
    match hrev : alookup r.reverse p with
    | none =>
        simp only [hrev] at h
        exact absurd (congrArg (fun t => t.2.2) h) (by simp)
    | some e2 =>
        simp only [hrev] at h
        match hb : b64decode q with
        | none =>
            simp only [hb] at h
            exact absurd (congrArg (fun t => t.2.2) h) (by simp)
        | some pl =>
            simp only [hb, Prod.mk.injEq] at h
            obtain ⟨he, hp, -⟩ := h
            subst he
            subst hp
            exact ⟨rfl, rfl⟩
  · rw [decodePayload_not_two r s (by rw [hs]; intro a b hh; simp at hh)] at h
    exact absurd (congrArg (fun t => t.2.2) h) (by simp)

/-- Bytes produced by a successful `decodePayload` are genuine bytes. -/
theorem decodePayload_lt256 (r : Registry) (s : Str) (e : Entity)
    (payload : List Nat) (h : decodePayload r s = (e, payload, none)) :
    ∀ b ∈ payload, b < 256 := by
  obtain ⟨p, q, _, _, hb⟩ := decodePayload_ok r s e payload h
  exact b64decode_lt256 q payload hb

/-! ## Claim C4 -/

/-- C4: `DeserializeWithEntity` fails with `ErrInvalidPrefixedUUIDFormat`
exactly when the token does not split into 2 parts on the current separator —
equivalently when the separator occurs any number of times other than once,
which covers the empty string, a missing separator and repeated separators —
with `ErrUnknownPrefix` exactly when it splits but part 0 is not in the
reverse map, with `ErrInvalidUUIDBadBase64` exactly when the prefix resolves
but part 1 fails base64url-no-padding decoding, and with
`ErrInvalidUUIDFormat` exactly when decoding succeeded but the payload is not
16 bytes long; and on every error path the returned entity is `NullEntity`
and the returned UUID is the nil UUID. -/
theorem c4_deserialize_error_kinds (r : Registry) (s : Str) :
    ((DeserializeWithEntity r s).2.2 = some Err.invalidFormat ↔
      (splitSep r.sep s).length ≠ 2)
    ∧ ((splitSep r.sep s).length ≠ 2 ↔ s.count r.sep ≠ 1)
    ∧ ((DeserializeWithEntity r s).2.2 = some Err.unknownPfx ↔
      ∃ p q, splitSep r.sep s = [p, q] ∧ alookup r.reverse p = none)
    ∧ ((DeserializeWithEntity r s).2.2 = some Err.badBase64 ↔
      ∃ p q e, splitSep r.sep s = [p, q] ∧ alookup r.reverse p = some e ∧
        b64decode q = none)
    ∧ ((DeserializeWithEntity r s).2.2 = some Err.invalidUUID ↔
      ∃ e payload, decodePayload r s = (e, payload, none) ∧ payload.length ≠ 16)
    ∧ ((DeserializeWithEntity r s).2.2 ≠ none →
      (DeserializeWithEntity r s).1 = NullEntity ∧
        (DeserializeWithEntity r s).2.1 = uuidNil) := by
  have hcnt := splitSep_length r.sep s
  rcases hs : splitSep r.sep s with _ | ⟨p, _ | ⟨q, _ | ⟨x, rest⟩⟩⟩ <;>
    rw [hs] at hcnt
  · have hdp := decodePayload_not_two r s (by rw [hs]; intro a b hh; simp at hh)
    have hd : DeserializeWithEntity r s =
        (NullEntity, uuidNil, some Err.invalidFormat) := by
      unfold DeserializeWithEntity
      rw [hdp]
    rw [hd]
    refine ⟨by simp, by simp only [List.length_nil, List.length_cons] at hcnt ⊢; omega, ?_, ?_, ?_, fun _ => ⟨rfl, rfl⟩⟩
    · constructor
      · intro hh; exact absurd hh (by decide)
      · rintro ⟨a, b, hh, -⟩; simp at hh
    · constructor
      · intro hh; exact absurd hh (by decide)
      · rintro ⟨a, b, e, hh, -⟩; simp at hh
    · constructor
      · intro hh; exact absurd hh (by decide)
      · rintro ⟨e, payload, hh, -⟩
        rw [hdp] at hh
        exact absurd (congrArg (fun t => t.2.2) hh) (by simp)
  · have hdp := decodePayload_not_two r s (by rw [hs]; intro a b hh; simp at hh)
    have hd : DeserializeWithEntity r s =
        (NullEntity, uuidNil, some Err.invalidFormat) := by
      unfold DeserializeWithEntity
      rw [hdp]
    rw [hd]
    refine ⟨by simp, by simp only [List.length_nil, List.length_cons] at hcnt ⊢; omega, ?_, ?_, ?_, fun _ => ⟨rfl, rfl⟩⟩
    · constructor
      · intro hh; exact absurd hh (by decide)
      · rintro ⟨a, b, hh, -⟩; simp at hh
    · constructor
      · intro hh; exact absurd hh (by decide)
      · rintro ⟨a, b, e, hh, -⟩; simp at hh
    · constructor
      · intro hh; exact absurd hh (by decide)
      · rintro ⟨e, payload, hh, -⟩
        rw [hdp] at hh
        exact absurd (congrArg (fun t => t.2.2) hh) (by simp)
  · -- exactly two parts
    have hdp := decodePayload_two r s p q hs
    match hrev : alookup r.reverse p with
    | none =>
        simp only [hrev] at hdp
        have hd : DeserializeWithEntity r s =
            (NullEntity, uuidNil, some Err.unknownPfx) := by
          unfold DeserializeWithEntity
          rw [hdp]
        rw [hd]
        refine ⟨by simp, by simp only [List.length_nil, List.length_cons] at hcnt ⊢; omega, ?_, ?_, ?_, fun _ => ⟨rfl, rfl⟩⟩
        · constructor
          · intro _; exact ⟨p, q, rfl, hrev⟩
          · intro _; rfl
        · constructor
          · intro hh; exact absurd hh (by decide)
          · rintro ⟨a, b, e, hh, hrev2, -⟩
            injection hh with h1 h2
            subst h1
            rw [hrev] at hrev2
            exact absurd hrev2 (by simp)
        · constructor
          · intro hh; exact absurd hh (by decide)
          · rintro ⟨e, payload, hh, -⟩
            rw [hdp] at hh
            exact absurd (congrArg (fun t => t.2.2) hh) (by simp)
    | some e =>
        simp only [hrev] at hdp
        match hb : b64decode q with
        | none =>
            simp only [hb] at hdp
            have hd : DeserializeWithEntity r s =
                (NullEntity, uuidNil, some Err.badBase64) := by
              unfold DeserializeWithEntity
              rw [hdp]
            rw [hd]
            refine ⟨by simp, by simp only [List.length_nil, List.length_cons] at hcnt ⊢; omega, ?_, ?_, ?_,
              fun _ => ⟨rfl, rfl⟩⟩
            · constructor
              · intro hh; exact absurd hh (by decide)
              · rintro ⟨a, b, hh, hrev2⟩
                injection hh with h1 h2
                subst h1
                rw [hrev] at hrev2
                exact absurd hrev2 (by simp)
            · constructor
              · intro _; exact ⟨p, q, e, rfl, hrev, hb⟩
              · intro _; rfl
            · constructor
              · intro hh; exact absurd hh (by decide)
              · rintro ⟨e2, payload, hh, -⟩
                rw [hdp] at hh
                exact absurd (congrArg (fun t => t.2.2) hh) (by simp)
        | some payload =>
            simp only [hb] at hdp
            have hbytes : ∀ b ∈ payload, b < 256 := b64decode_lt256 q payload hb
            by_cases h16 : payload.length = 16
            · have hfb : fromBytes payload = some ⟨payload, h16, hbytes⟩ :=
                fromBytes_of_valid payload h16 hbytes
              have hd : DeserializeWithEntity r s =
                  (e, ⟨payload, h16, hbytes⟩, none) := by
                unfold DeserializeWithEntity
                rw [hdp]
                simp only [hfb]
              rw [hd]
              refine ⟨by simp, by simp only [List.length_nil, List.length_cons] at hcnt ⊢; omega, ?_, ?_, ?_, by simp⟩
              · constructor
                · intro hh; exact absurd hh (by simp)
                · rintro ⟨a, b, hh, hrev2⟩
                  injection hh with h1 h2
                  subst h1
                  rw [hrev] at hrev2
                  exact absurd hrev2 (by simp)
              · constructor
                · intro hh; exact absurd hh (by simp)
                · rintro ⟨a, b, e2, hh, hrev2, hb2⟩
                  injection hh with h1 h2
                  injection h2 with h2 _
                  subst h1
                  subst h2
                  rw [hb] at hb2
                  exact absurd hb2 (by simp)
              · constructor
                · intro hh; exact absurd hh (by simp)
                · rintro ⟨e2, payload2, hh, h162⟩
                  rw [hdp] at hh
                  have hpp : payload = payload2 := congrArg (fun t => t.2.1) hh
                  subst hpp
                  exact absurd h16 h162
            · have hfb : fromBytes payload = none := by
                unfold fromBytes
                rw [dif_neg]
                intro hh
                exact h16 hh.1
              have hd : DeserializeWithEntity r s =
                  (NullEntity, uuidNil, some Err.invalidUUID) := by
                unfold DeserializeWithEntity
                rw [hdp]
                simp only [hfb]
              rw [hd]
              refine ⟨by simp, by simp only [List.length_nil, List.length_cons] at hcnt ⊢; omega, ?_, ?_, ?_,
                fun _ => ⟨rfl, rfl⟩⟩
              · constructor
                · intro hh; exact absurd hh (by decide)
                · rintro ⟨a, b, hh, hrev2⟩
                  injection hh with h1 h2
                  subst h1
                  rw [hrev] at hrev2
                  exact absurd hrev2 (by simp)
              · constructor
                · intro hh; exact absurd hh (by decide)
                · rintro ⟨a, b, e2, hh, hrev2, hb2⟩
                  injection hh with h1 h2
                  injection h2 with h2 _
                  subst h1
                  subst h2
                  rw [hb] at hb2
                  exact absurd hb2 (by simp)
              · constructor
                · intro _; exact ⟨e, payload, hdp, h16⟩
                · intro _; rfl
  · have hdp := decodePayload_not_two r s (by rw [hs]; intro a b hh; simp at hh)
    have hd : DeserializeWithEntity r s =
        (NullEntity, uuidNil, some Err.invalidFormat) := by
      unfold DeserializeWithEntity
      rw [hdp]
    rw [hd]
    refine ⟨by simp, by simp only [List.length_nil, List.length_cons] at hcnt ⊢; omega, ?_, ?_, ?_, fun _ => ⟨rfl, rfl⟩⟩
    · constructor
      · intro hh; exact absurd hh (by decide)
      · rintro ⟨a, b, hh, -⟩; simp at hh
    · constructor
      · intro hh; exact absurd hh (by decide)
      · rintro ⟨a, b, e, hh, -⟩; simp at hh
    · constructor
      · intro hh; exact absurd hh (by decide)
      · rintro ⟨e, payload, hh, -⟩
        rw [hdp] at hh
        exact absurd (congrArg (fun t => t.2.2) hh) (by simp)

/-- Witness for C4 at concrete inputs: `nopart` has no separator, `x.y` an
unknown prefix, `user.!` bad base64, `user.AAAA` a wrong payload length, each
reporting its kind with `NullEntity` and the nil UUID. -/
theorem c4_witness :
    DeserializeWithEntity reg1 "nopart".toList =
      (NullEntity, uuidNil, some Err.invalidFormat)
    ∧ DeserializeWithEntity reg1 "x.y".toList =
      (NullEntity, uuidNil, some Err.unknownPfx) := by
  constructor
  · have h := (c4_deserialize_error_kinds reg1 "nopart".toList).1.mpr (by decide)
    have hout := (c4_deserialize_error_kinds reg1 "nopart".toList).2.2.2.2.2
      (by rw [h]; simp)
    have h1 := hout.1
    have h2 := hout.2
    cases hdw : DeserializeWithEntity reg1 "nopart".toList with
    | mk a bc =>
        cases bc with
        | mk b c =>
            rw [hdw] at h h1 h2
            simp only at h h1 h2
            rw [h1, h2, h]
  · have h := (c4_deserialize_error_kinds reg1 "x.y".toList).2.2.1.mpr
      ⟨"x".toList, "y".toList, by decide, by decide⟩
    have hout := (c4_deserialize_error_kinds reg1 "x.y".toList).2.2.2.2.2
      (by rw [h]; simp)
    have h1 := hout.1
    have h2 := hout.2
    cases hdw : DeserializeWithEntity reg1 "x.y".toList with
    | mk a bc =>
        cases bc with
        | mk b c =>
            rw [hdw] at h h1 h2
            simp only at h h1 h2
            rw [h1, h2, h]

/-! ## Claim C5 -/

/-- C5: `AddMultiPrefix` checks its six validations in source order — entity
not `NullEntity`, prefix well-formed, entity absent from the forward map,
prefix absent from the reverse map, at least two components, all components
registered — reports the first failing one, leaves the registry untouched on
any failure, and on success prepends exactly the composite's forward, reverse
and multi entries. -/
theorem c5_addMulti_validation (r : Registry) (info : MultiInfo) :
    ((addMulti r info).2 = some ConfigErr.nullEntity ↔ info.entity = NullEntity)
    ∧ ((addMulti r info).2 = some ConfigErr.invalidPfx ↔
        ¬info.entity = NullEntity ∧ ¬pfxOk info.pfx = true)
    ∧ ((addMulti r info).2 = some ConfigErr.entityExists ↔
        ¬info.entity = NullEntity ∧ pfxOk info.pfx = true ∧
          ¬alookup r.prefixes info.entity = none)
    ∧ ((addMulti r info).2 = some ConfigErr.pfxExists ↔
        ¬info.entity = NullEntity ∧ pfxOk info.pfx = true ∧
          alookup r.prefixes info.entity = none ∧
          ¬alookup r.reverse info.pfx = none)
    ∧ ((addMulti r info).2 = some ConfigErr.tooFewComponents ↔
        ¬info.entity = NullEntity ∧ pfxOk info.pfx = true ∧
          alookup r.prefixes info.entity = none ∧
          alookup r.reverse info.pfx = none ∧
          info.entities.length < 2)
    ∧ ((addMulti r info).2 = some ConfigErr.compNotRegistered ↔
        ¬info.entity = NullEntity ∧ pfxOk info.pfx = true ∧
          alookup r.prefixes info.entity = none ∧
          alookup r.reverse info.pfx = none ∧
          ¬info.entities.length < 2 ∧
          ¬∀ c ∈ info.entities, ¬alookup r.prefixes c = none)
    ∧ ((addMulti r info).2 ≠ none → (addMulti r info).1 = r)
    ∧ ((addMulti r info).2 = none ↔
        ¬info.entity = NullEntity ∧ pfxOk info.pfx = true ∧
          alookup r.prefixes info.entity = none ∧
          alookup r.reverse info.pfx = none ∧
          ¬info.entities.length < 2 ∧
          ∀ c ∈ info.entities, ¬alookup r.prefixes c = none)
    ∧ ((addMulti r info).2 = none →
        (addMulti r info).1 =
          { r with
              prefixes := (info.entity, info.pfx) :: r.prefixes,
              reverse := (info.pfx, info.entity) :: r.reverse,
              multi := (info.entity, info.entities) :: r.multi }) := by
  unfold addMulti
  by_cases h1 : info.entity = NullEntity
  · simp [h1]
  · rw [if_neg h1]
    by_cases h2 : pfxOk info.pfx = true
    · by_cases h3 : alookup r.prefixes info.entity = none
      · by_cases h4 : alookup r.reverse info.pfx = none
        · by_cases h5 : info.entities.length < 2
          · simp [h1, h2, h3, h4, h5]
          · by_cases h6 :
                info.entities.all (fun e => (alookup r.prefixes e).isSome) = true
            · have hx : ∀ c ∈ info.entities, ¬alookup r.prefixes c = none :=
                fun c hc =>
                  Option.isSome_iff_ne_none.mp (List.all_eq_true.mp h6 c hc)
              simp [h1, h2, h3, h4, h5, h6, hx]
              exact hx
            · have hx : ¬∀ c ∈ info.entities, ¬alookup r.prefixes c = none := by
                intro hall
                exact h6 (List.all_eq_true.mpr
                  (fun c hc => Option.isSome_iff_ne_none.mpr (hall c hc)))
              simp only [Bool.not_eq_true] at h6
              simp [h1, h2, h3, h4, h5, h6, hx]
        · have h4b : (alookup r.reverse info.pfx).isSome = true :=
            Option.isSome_iff_ne_none.mpr h4
          simp [h1, h2, h3, h4, h4b]
      · have h3b : (alookup r.prefixes info.entity).isSome = true :=
          Option.isSome_iff_ne_none.mpr h3
        simp [h1, h2, h3, h3b]
    · simp only [Bool.not_eq_true] at h2
      simp [h1, h2]

/-- The registry produced by `NewRegistry` for `(1, "user"), (2, "post")`. -/
def reg2 : Registry :=
  ⟨[((2 : Int), "post".toList), ((1 : Int), "user".toList)],
    [("post".toList, (2 : Int)), ("user".toList, (1 : Int))], Char.ofNat 46, []⟩

/-- A valid composite over `reg2`: entity 10, prefix `up`, components 1, 2. -/
def upInfo : MultiInfo :=
  ⟨(10 : Int), "up".toList, [(1 : Int), (2 : Int)]⟩

/-- Witness for C5: adding the `up` composite to `reg2` passes every check
and prepends exactly the three entries; adding one with a `NullEntity` fails
and returns the registry untouched. -/
theorem c5_witness :
    (addMulti reg2 upInfo).2 = none
    ∧ (addMulti reg2 upInfo).1 =
        { reg2 with
            prefixes := (upInfo.entity, upInfo.pfx) :: reg2.prefixes,
            reverse := (upInfo.pfx, upInfo.entity) :: reg2.reverse,
            multi := (upInfo.entity, upInfo.entities) :: reg2.multi }
    ∧ (addMulti reg2 ⟨(0 : Int), "up".toList, [(1 : Int), (2 : Int)]⟩).2 =
        some ConfigErr.nullEntity
    ∧ (addMulti reg2 ⟨(0 : Int), "up".toList, [(1 : Int), (2 : Int)]⟩).1 = reg2 :=
  have h := c5_addMulti_validation reg2 upInfo
  have hnone : (addMulti reg2 upInfo).2 = none :=
    h.2.2.2.2.2.2.2.1.mpr
      ⟨by decide, by decide, by decide, by decide, by decide, by decide⟩
  have hbad := c5_addMulti_validation reg2 ⟨(0 : Int), "up".toList, [(1 : Int), (2 : Int)]⟩
  have hsome :
      (addMulti reg2 ⟨(0 : Int), "up".toList, [(1 : Int), (2 : Int)]⟩).2 =
        some ConfigErr.nullEntity :=
    hbad.1.mpr (by decide)
  ⟨hnone, h.2.2.2.2.2.2.2.2 hnone, hsome,
    hbad.2.2.2.2.2.2.1 (by rw [hsome]; simp)⟩

/-! ## Claim C9 -/

/-- C9: in every reachable registry (built by `NewRegistry` and extended by
any sequence of successful `AddMultiPrefix` / `WithSeparator` calls),
`NullEntity` is in neither map; consequently `DeserializeWithEntity` never
returns `NullEntity` together with a nil error, and `Deserialize(NullEntity,
token)` fails for every token. -/
theorem c9_null_entity_invariant (r : Registry) (hr : Reachable r) :
    alookup r.prefixes NullEntity = none
    ∧ (∀ p e, alookup r.reverse p = some e → e ≠ NullEntity)
    ∧ (∀ s : Str, (DeserializeWithEntity r s).2.2 = none →
        (DeserializeWithEntity r s).1 ≠ NullEntity)
    ∧ (∀ s : Str, (Deserialize r NullEntity s).2 ≠ none) := by
  have inv := Reachable_inv r hr
  obtain ⟨-, -, hnull, hrev, -⟩ := inv
  have part3 : ∀ s : Str, (DeserializeWithEntity r s).2.2 = none →
      (DeserializeWithEntity r s).1 ≠ NullEntity := by
    intro s hnone
    rcases hdp : decodePayload r s with ⟨e2, payload, err⟩
    cases err with
    | some e3 =>
        have hd : DeserializeWithEntity r s = (NullEntity, uuidNil, some e3) := by
          unfold DeserializeWithEntity
          rw [hdp]
        rw [hd] at hnone
        simp at hnone
    | none =>
        obtain ⟨p, q, -, hrevp, -⟩ := decodePayload_ok r s e2 payload hdp
        have hne := hrev p e2 hrevp
        match hfb : fromBytes payload with
        | none =>
            have hd : DeserializeWithEntity r s =
                (NullEntity, uuidNil, some Err.invalidUUID) := by
              unfold DeserializeWithEntity
              rw [hdp]
              simp only [hfb]
            rw [hd] at hnone
            simp at hnone
        | some u =>
            have hd : DeserializeWithEntity r s = (e2, u, none) := by
              unfold DeserializeWithEntity
              rw [hdp]
              simp only [hfb]
            rw [hd]
            exact hne
  refine ⟨hnull, hrev, part3, ?_⟩
  intro s
  rcases hdw : DeserializeWithEntity r s with ⟨pe, u, err⟩
  cases err with
  | some e3 =>
      have hd : Deserialize r NullEntity s = (uuidNil, some e3) := by
        unfold Deserialize
        rw [hdw]
      rw [hd]
      simp
  | none =>
      have hpe : pe ≠ NullEntity := by
        have := part3 s (by rw [hdw])
        rw [hdw] at this
        exact this
      have hd : Deserialize r NullEntity s = (uuidNil, some Err.entityMismatch) := by
        unfold Deserialize
        rw [hdw]
        simp only [if_neg hpe]
      rw [hd]
      simp

/-- Witness for C9 on the concrete single-entry registry: no `NullEntity` in
the maps, and `Deserialize(NullEntity, ...)` fails on a well-formed token. -/
theorem c9_witness :
    alookup reg1.prefixes NullEntity = none
    ∧ (Deserialize reg1 NullEntity "user.AZXje_k_dRiprKK-aEY8fg".toList).2 ≠ none :=
  have hre : Reachable reg1 :=
    Reachable.base [((1 : Int), "user".toList)] reg1 (by decide)
  have h := c9_null_entity_invariant reg1 hre
  ⟨h.1, h.2.2.2 "user.AZXje_k_dRiprKK-aEY8fg".toList⟩

/-! ## Multi-token machinery -/

/-- The concatenated payload of a list of UUIDs is made of genuine bytes. -/
theorem flatten_uuid_lt256 (us : List UUID) :
    ∀ b ∈ (us.map (fun u => u.val)).flatten, b < 256 := by
  intro b hb
  simp only [List.mem_flatten, List.mem_map] at hb
  obtain ⟨l, ⟨u, _, rfl⟩, hbl⟩ := hb
  exact uuid_val_lt256 u b hbl

/-- The concatenated payload of `n` UUIDs is `16 * n` bytes long. -/
theorem flatten_uuid_length (us : List UUID) :
    (us.map (fun u => u.val)).flatten.length = 16 * us.length := by
  induction us with
  | nil => simp
  | cons u rest ih =>
      simp only [List.map_cons, List.flatten_cons, List.length_append, ih,
        uuid_val_length u, List.length_cons]
      ring

/-- Writing back the chunks of a concatenated UUID payload recovers every
UUID, in order, with no error, regardless of the slots' previous contents. -/
theorem writeChunks_flatten (us : List UUID) (slots : List UUID)
    (h : slots.length = us.length) :
    writeChunks slots (us.map (fun u => u.val)).flatten = (us, none) := by
  induction us generalizing slots with
  | nil =>
      rcases slots with _ | ⟨x, xs⟩
      · rfl
      · simp at h
  | cons u rest ih =>
      rcases slots with _ | ⟨x, xs⟩
      · simp at h
      · simp only [List.length_cons] at h
        have hx : xs.length = rest.length := by omega
        simp only [List.map_cons, List.flatten_cons, writeChunks]
        have htake : (u.val ++ (rest.map (fun u => u.val)).flatten).take 16 = u.val :=
          List.take_left' (uuid_val_length u)
        have hdrop : (u.val ++ (rest.map (fun u => u.val)).flatten).drop 16 =
            (rest.map (fun u => u.val)).flatten :=
          List.drop_left' (uuid_val_length u)
        rw [htake, hdrop, fromBytes_val u, ih xs hx]

/-- In a zip of a pair list with its own first components, every pair
matches positionally. -/
theorem zip_map_fst_match (l : List (Entity × UUID)) :
    ∀ tc ∈ l.zip (l.map Prod.fst), tc.1.1 = tc.2 := by
  induction l with
  | nil => simp
  | cons x xs ih =>
      intro tc htc
      simp only [List.map_cons, List.zip_cons_cons, List.mem_cons] at htc
      rcases htc with h | h
      · subst h; rfl
      · exact ih tc h

/-- The write loop never fails on a payload of the right length made of
genuine bytes (the per-chunk invalid-UUID branch is unreachable), and its
output does not depend on the slots' previous contents. -/
theorem writeChunks_total (slots : List UUID) (payload : List Nat)
    (hlen : payload.length = 16 * slots.length)
    (hb : ∀ b ∈ payload, b < 256) :
    (writeChunks slots payload).2 = none
    ∧ ∀ slots2 : List UUID, slots2.length = slots.length →
        writeChunks slots2 payload = writeChunks slots payload := by
  induction slots generalizing payload with
  | nil =>
      refine ⟨rfl, ?_⟩
      intro slots2 h2
      rcases slots2 with _ | ⟨y, ys⟩
      · rfl
      · simp at h2
  | cons x xs ih =>
      have h16 : (payload.take 16).length = 16 := by
        rw [List.length_take]
        simp only [List.length_cons] at hlen
        omega
      have hb16 : ∀ b ∈ payload.take 16, b < 256 :=
        fun b hbb => hb b (List.mem_of_mem_take hbb)
      have hfb : fromBytes (payload.take 16) = some ⟨payload.take 16, h16, hb16⟩ :=
        fromBytes_of_valid _ h16 hb16
      have hdlen : (payload.drop 16).length = 16 * xs.length := by
        rw [List.length_drop]
        simp only [List.length_cons] at hlen
        omega
      have hdb : ∀ b ∈ payload.drop 16, b < 256 :=
        fun b hbb => hb b (List.mem_of_mem_drop hbb)
      obtain ⟨hno, hind⟩ := ih (payload.drop 16) hdlen hdb
      constructor
      · simp only [writeChunks, hfb]
        exact hno
      · intro slots2 h2
        rcases slots2 with _ | ⟨y, ys⟩
        · simp at h2
        · simp only [List.length_cons] at h2
          simp only [writeChunks, hfb]
          rw [hind ys (by omega)]

/-! ## Claim C2 -/

/-- C2: for every composite entity of a reachable registry (its components
recorded in the multi map) and every list of pairs supplied in the declared
component order, `SerializeMulti` succeeds, and `DeserializeMulti` on the
resulting token with targets declared in the same order succeeds and writes
each component UUID into its corresponding slot, in order. -/
theorem c2_multi_roundtrip (r : Registry) (hr : Reachable r) (entity : Entity)
    (comps : List Entity) (hm : alookup r.multi entity = some comps)
    (pairs targets : List (Entity × UUID))
    (hord : pairs.map Prod.fst = comps) (htord : targets.map Prod.fst = comps) :
    (SerializeMulti r entity pairs).2 = none
    ∧ DeserializeMulti r entity (SerializeMulti r entity pairs).1 targets =
        (pairs.map Prod.snd, none) := by
  obtain ⟨hsep, hpfx, -, -, hmulti⟩ := Reachable_inv r hr
  obtain ⟨p, hfp, hrp⟩ := hmulti entity comps hm
  have hpok : pfxOk p = true := hpfx entity p hfp
  have hplen : pairs.length = comps.length := by
    rw [← hord, List.length_map]
  have htlen : targets.length = comps.length := by
    rw [← htord, List.length_map]
  have hpall : (pairs.zip comps).all (fun pc => pc.1.1 = pc.2) = true := by
    rw [List.all_eq_true]
    intro pc hpc
    rw [← hord] at hpc
    exact decide_eq_true (zip_map_fst_match pairs pc hpc)
  have htall : (targets.zip comps).all (fun tc => tc.1.1 = tc.2) = true := by
    rw [List.all_eq_true]
    intro tc htc
    rw [← htord] at htc
    exact decide_eq_true (zip_map_fst_match targets tc htc)
  have hmm : (pairs.map Prod.snd).map (fun u => u.val) =
      pairs.map (fun pr => pr.2.val) := by
    rw [List.map_map]
    rfl
  have hser : SerializeMulti r entity pairs =
      (p ++ r.sep :: b64encode (pairs.map (fun pr => pr.2.val)).flatten, none) := by
    unfold SerializeMulti
    simp only [hm, hplen, ne_eq, not_true_eq_false, if_false, hpall,
      Bool.not_true, Bool.false_eq_true, hfp, Option.getD_some]
  have hbuf256 : ∀ b ∈ (pairs.map (fun pr => pr.2.val)).flatten, b < 256 := by
    rw [← hmm]
    exact flatten_uuid_lt256 (pairs.map Prod.snd)
  have hdec := decodePayload_serialize r hsep p hpok _ hbuf256 entity hrp
  have hlen16 : (pairs.map (fun pr => pr.2.val)).flatten.length =
      comps.length * 16 := by
    rw [← hmm, flatten_uuid_length, List.length_map, hplen]
    ring
  have hwc : writeChunks (targets.map (fun t => t.2))
      (pairs.map (fun pr => pr.2.val)).flatten = (pairs.map Prod.snd, none) := by
    rw [← hmm]
    exact writeChunks_flatten (pairs.map Prod.snd) (targets.map (fun t => t.2))
      (by rw [List.length_map, List.length_map, htlen, hplen])
  refine ⟨by rw [hser], ?_⟩
  rw [hser]
  unfold DeserializeMulti
  simp only [hdec, ne_eq, not_true_eq_false, if_false, hm, htlen, htall,
    Bool.not_true, Bool.false_eq_true, hlen16, hwc]

/-- The registry obtained from `reg2` by adding the `up` composite. -/
def reg2up : Registry :=
  ⟨[((10 : Int), "up".toList), ((2 : Int), "post".toList), ((1 : Int), "user".toList)],
    [("up".toList, (10 : Int)), ("post".toList, (2 : Int)), ("user".toList, (1 : Int))],
    Char.ofNat 46, [((10 : Int), [(1 : Int), (2 : Int)])]⟩

/-- A second UUID fixture, `00112233-4455-6677-8899-aabbccddeeff`. -/
def exUUID2 : UUID :=
  ⟨[0x00, 0x11, 0x22, 0x33, 0x44, 0x55, 0x66, 0x77,
    0x88, 0x99, 0xaa, 0xbb, 0xcc, 0xdd, 0xee, 0xff], by decide⟩

/-- The registry for `(1, "user"), (2, "post"), (3, "comment")`. -/
def reg3 : Registry :=
  ⟨[((3 : Int), "comment".toList), ((2 : Int), "post".toList),
      ((1 : Int), "user".toList)],
    [("comment".toList, (3 : Int)), ("post".toList, (2 : Int)),
      ("user".toList, (1 : Int))], Char.ofNat 46, []⟩

/-- `reg3` extended with the 3-component composite `upc = (1, 2, 3)`. -/
def reg3upc : Registry :=
  ⟨[((11 : Int), "upc".toList), ((3 : Int), "comment".toList),
      ((2 : Int), "post".toList), ((1 : Int), "user".toList)],
    [("upc".toList, (11 : Int)), ("comment".toList, (3 : Int)),
      ("post".toList, (2 : Int)), ("user".toList, (1 : Int))],
    Char.ofNat 46, [((11 : Int), [(1 : Int), (2 : Int), (3 : Int)])]⟩

/-- Witness for C2: the 2-component composite `up = (1, 2)` of `reg2up`
round-trips a pair of distinct UUIDs, and the 3-component composite
`upc = (1, 2, 3)` of `reg3upc` round-trips three UUIDs, writing every slot in
order (targets start out holding nil UUIDs). -/
theorem c2_witness :
    ((SerializeMulti reg2up 10 [(1, exUUID), (2, exUUID2)]).2 = none
    ∧ DeserializeMulti reg2up 10
        (SerializeMulti reg2up 10 [(1, exUUID), (2, exUUID2)]).1
        [(1, uuidNil), (2, uuidNil)] = ([exUUID, exUUID2], none))
    ∧ (SerializeMulti reg3upc 11 [(1, exUUID), (2, exUUID2), (3, exUUID)]).2 = none
    ∧ DeserializeMulti reg3upc 11
        (SerializeMulti reg3upc 11 [(1, exUUID), (2, exUUID2), (3, exUUID)]).1
        [(1, uuidNil), (2, uuidNil), (3, uuidNil)] =
        ([exUUID, exUUID2, exUUID], none) :=
  have hre : Reachable reg2up :=
    Reachable.addStep reg2 upInfo reg2up
      (Reachable.base [((1 : Int), "user".toList), ((2 : Int), "post".toList)] reg2
        (by decide))
      (by decide)
  have hre3 : Reachable reg3upc :=
    Reachable.addStep reg3 ⟨(11 : Int), "upc".toList, [(1 : Int), (2 : Int), (3 : Int)]⟩
      reg3upc
      (Reachable.base
        [((1 : Int), "user".toList), ((2 : Int), "post".toList),
          ((3 : Int), "comment".toList)] reg3 (by decide))
      (by decide)
  have h2 := c2_multi_roundtrip reg2up hre 10 [(1 : Int), (2 : Int)] (by decide)
    [(1, exUUID), (2, exUUID2)] [(1, uuidNil), (2, uuidNil)] (by decide) (by decide)
  have h3 := c2_multi_roundtrip reg3upc hre3 11 [(1 : Int), (2 : Int), (3 : Int)]
    (by decide) [(1, exUUID), (2, exUUID2), (3, exUUID)]
    [(1, uuidNil), (2, uuidNil), (3, uuidNil)] (by decide) (by decide)
  ⟨h2, h3.1, h3.2⟩

/-! ## Claim C3 -/

/-- C3: `DeserializeMulti` reports the earliest applicable failure in the
fixed precedence: token not splitting into exactly 2 parts, then unknown
prefix, then bad base64, then entity mismatch, then not-a-multi-entity, then
target-count mismatch, then positional entity-order mismatch, then wrong
payload length — each kind holds exactly when its stage fails and every
earlier stage passed. -/
theorem c3_multi_error_precedence (r : Registry) (entity : Entity) (s : Str)
    (targets : List (Entity × UUID)) :
    ((DeserializeMulti r entity s targets).2 = some Err.invalidFormat ↔
      (splitSep r.sep s).length ≠ 2)
    ∧ ((DeserializeMulti r entity s targets).2 = some Err.unknownPfx ↔
      ∃ p q, splitSep r.sep s = [p, q] ∧ alookup r.reverse p = none)
    ∧ ((DeserializeMulti r entity s targets).2 = some Err.badBase64 ↔
      ∃ p q e2, splitSep r.sep s = [p, q] ∧ alookup r.reverse p = some e2 ∧
        b64decode q = none)
    ∧ ((DeserializeMulti r entity s targets).2 = some Err.entityMismatch ↔
      ∃ e2 payload, decodePayload r s = (e2, payload, none) ∧ e2 ≠ entity)
    ∧ ((DeserializeMulti r entity s targets).2 = some Err.notMulti ↔
      ∃ payload, decodePayload r s = (entity, payload, none) ∧
        alookup r.multi entity = none)
    ∧ ((DeserializeMulti r entity s targets).2 = some Err.countMismatch ↔
      ∃ payload comps, decodePayload r s = (entity, payload, none) ∧
        alookup r.multi entity = some comps ∧ targets.length ≠ comps.length)
    ∧ ((DeserializeMulti r entity s targets).2 = some Err.orderMismatch ↔
      ∃ payload comps, decodePayload r s = (entity, payload, none) ∧
        alookup r.multi entity = some comps ∧ targets.length = comps.length ∧
        ¬∀ tc ∈ targets.zip comps, tc.1.1 = tc.2)
    ∧ ((DeserializeMulti r entity s targets).2 = some Err.invalidUUID ↔
      ∃ payload comps, decodePayload r s = (entity, payload, none) ∧
        alookup r.multi entity = some comps ∧ targets.length = comps.length ∧
        (∀ tc ∈ targets.zip comps, tc.1.1 = tc.2) ∧
        payload.length ≠ comps.length * 16) := by
  rcases hdp : decodePayload r s with ⟨e2, payload, err⟩
  cases err with
  | some k =>
      -- the decode error passes through unchanged
      have hD : DeserializeMulti r entity s targets =
          (targets.map (fun t => t.2), some k) := by
        unfold DeserializeMulti
        rw [hdp]
      have hnotok : ∀ (e3 : Entity) (pl : List Nat),
          decodePayload r s ≠ (e3, pl, none) := by
        intro e3 pl hh
        rw [hh] at hdp
        exact absurd (congrArg (fun t => t.2.2) hdp) (by simp)
      rcases hs : splitSep r.sep s with _ | ⟨p, _ | ⟨q, _ | ⟨x, rest⟩⟩⟩
      · have h0 := decodePayload_not_two r s (by rw [hs]; simp)
        rw [hdp] at h0
        have hk : k = Err.invalidFormat :=
          Option.some.inj (congrArg (fun t => t.2.2) h0)
        subst hk
        rw [hD]
        refine ⟨by simp, ?_, ?_, ?_, ?_, ?_, ?_, ?_⟩
        · constructor
          · intro hh; exact absurd hh (by simp)
          · rintro ⟨a, b, hh, -⟩; simp at hh
        · constructor
          · intro hh; exact absurd hh (by simp)
          · rintro ⟨a, b, e3, hh, -⟩; simp at hh
        · constructor
          · intro hh; exact absurd hh (by simp)
          · rintro ⟨e3, pl, hh, -⟩
            exact absurd (congrArg (fun t => t.2.2) hh) (by simp)
        · constructor
          · intro hh; exact absurd hh (by simp)
          · rintro ⟨pl, hh, -⟩
            exact absurd (congrArg (fun t => t.2.2) hh) (by simp)
        · constructor
          · intro hh; exact absurd hh (by simp)
          · rintro ⟨pl, cs, hh, -⟩
            exact absurd (congrArg (fun t => t.2.2) hh) (by simp)
        · constructor
          · intro hh; exact absurd hh (by simp)
          · rintro ⟨pl, cs, hh, -⟩
            exact absurd (congrArg (fun t => t.2.2) hh) (by simp)
        · constructor
          · intro hh; exact absurd hh (by simp)
          · rintro ⟨pl, cs, hh, -⟩
            exact absurd (congrArg (fun t => t.2.2) hh) (by simp)
      · have h0 := decodePayload_not_two r s (by rw [hs]; simp)
        rw [hdp] at h0
        have hk : k = Err.invalidFormat :=
          Option.some.inj (congrArg (fun t => t.2.2) h0)
        subst hk
        rw [hD]
        refine ⟨by simp, ?_, ?_, ?_, ?_, ?_, ?_, ?_⟩
        · constructor
          · intro hh; exact absurd hh (by simp)
          · rintro ⟨a, b, hh, -⟩; simp at hh
        · constructor
          · intro hh; exact absurd hh (by simp)
          · rintro ⟨a, b, e3, hh, -⟩; simp at hh
        · constructor
          · intro hh; exact absurd hh (by simp)
          · rintro ⟨e3, pl, hh, -⟩
            exact absurd (congrArg (fun t => t.2.2) hh) (by simp)
        · constructor
          · intro hh; exact absurd hh (by simp)
          · rintro ⟨pl, hh, -⟩
            exact absurd (congrArg (fun t => t.2.2) hh) (by simp)
        · constructor
          · intro hh; exact absurd hh (by simp)
          · rintro ⟨pl, cs, hh, -⟩
            exact absurd (congrArg (fun t => t.2.2) hh) (by simp)
        · constructor
          · intro hh; exact absurd hh (by simp)
          · rintro ⟨pl, cs, hh, -⟩
            exact absurd (congrArg (fun t => t.2.2) hh) (by simp)
        · constructor
          · intro hh; exact absurd hh (by simp)
          · rintro ⟨pl, cs, hh, -⟩
            exact absurd (congrArg (fun t => t.2.2) hh) (by simp)
      · -- exactly two parts: unknown prefix or bad base64
        have h2 := decodePayload_two r s p q hs
        rw [hdp] at h2
        match hrev : alookup r.reverse p with
        | none =>
            simp only [hrev] at h2
            have hk : k = Err.unknownPfx :=
              Option.some.inj (congrArg (fun t => t.2.2) h2)
            subst hk
            rw [hD]
            refine ⟨?_, ?_, ?_, ?_, ?_, ?_, ?_, ?_⟩
            · constructor
              · intro hh; exact absurd hh (by simp)
              · intro hh; simp at hh
            · constructor
              · intro _; exact ⟨p, q, rfl, hrev⟩
              · intro _; rfl
            · constructor
              · intro hh; exact absurd hh (by simp)
              · rintro ⟨a, b, e3, hh, hrev2, -⟩
                injection hh with h1 h3
                subst h1
                rw [hrev] at hrev2
                exact absurd hrev2 (by simp)
            · constructor
              · intro hh; exact absurd hh (by simp)
              · rintro ⟨e4, pl, hh, -⟩
                exact absurd (congrArg (fun t => t.2.2) hh) (by simp)
            · constructor
              · intro hh; exact absurd hh (by simp)
              · rintro ⟨pl, hh, -⟩
                exact absurd (congrArg (fun t => t.2.2) hh) (by simp)
            · constructor
              · intro hh; exact absurd hh (by simp)
              · rintro ⟨pl, cs, hh, -⟩
                exact absurd (congrArg (fun t => t.2.2) hh) (by simp)
            · constructor
              · intro hh; exact absurd hh (by simp)
              · rintro ⟨pl, cs, hh, -⟩
                exact absurd (congrArg (fun t => t.2.2) hh) (by simp)
            · constructor
              · intro hh; exact absurd hh (by simp)
              · rintro ⟨pl, cs, hh, -⟩
                exact absurd (congrArg (fun t => t.2.2) hh) (by simp)
        | some e3 =>
            simp only [hrev] at h2
            match hb : b64decode q with
            | none =>
                simp only [hb] at h2
                have hk : k = Err.badBase64 :=
                  Option.some.inj (congrArg (fun t => t.2.2) h2)
                subst hk
                rw [hD]
                refine ⟨?_, ?_, ?_, ?_, ?_, ?_, ?_, ?_⟩
                · constructor
                  · intro hh; exact absurd hh (by simp)
                  · intro hh; simp at hh
                · constructor
                  · intro hh; exact absurd hh (by simp)
                  · rintro ⟨a, b, hh, hrev2⟩
                    injection hh with h1 h3
                    subst h1
                    rw [hrev] at hrev2
                    exact absurd hrev2 (by simp)
                · constructor
                  · intro _; exact ⟨p, q, e3, rfl, hrev, hb⟩
                  · intro _; rfl
                · constructor
                  · intro hh; exact absurd hh (by simp)
                  · rintro ⟨e4, pl, hh, -⟩
                    exact absurd (congrArg (fun t => t.2.2) hh) (by simp)
                · constructor
                  · intro hh; exact absurd hh (by simp)
                  · rintro ⟨pl, hh, -⟩
                    exact absurd (congrArg (fun t => t.2.2) hh) (by simp)
                · constructor
                  · intro hh; exact absurd hh (by simp)
                  · rintro ⟨pl, cs, hh, -⟩
                    exact absurd (congrArg (fun t => t.2.2) hh) (by simp)
                · constructor
                  · intro hh; exact absurd hh (by simp)
                  · rintro ⟨pl, cs, hh, -⟩
                    exact absurd (congrArg (fun t => t.2.2) hh) (by simp)
                · constructor
                  · intro hh; exact absurd hh (by simp)
                  · rintro ⟨pl, cs, hh, -⟩
                    exact absurd (congrArg (fun t => t.2.2) hh) (by simp)
            | some pl =>
                simp only [hb] at h2
                exact absurd (congrArg (fun t => t.2.2) h2) (by simp)
      · have h0 := decodePayload_not_two r s (by rw [hs]; simp)
        rw [hdp] at h0
        have hk : k = Err.invalidFormat :=
          Option.some.inj (congrArg (fun t => t.2.2) h0)
        subst hk
        rw [hD]
        refine ⟨by simp, ?_, ?_, ?_, ?_, ?_, ?_, ?_⟩
        · constructor
          · intro hh; exact absurd hh (by simp)
          · rintro ⟨a, b, hh, -⟩; simp at hh
        · constructor
          · intro hh; exact absurd hh (by simp)
          · rintro ⟨a, b, e3, hh, -⟩; simp at hh
        · constructor
          · intro hh; exact absurd hh (by simp)
          · rintro ⟨e3, pl, hh, -⟩
            exact absurd (congrArg (fun t => t.2.2) hh) (by simp)
        · constructor
          · intro hh; exact absurd hh (by simp)
          · rintro ⟨pl, hh, -⟩
            exact absurd (congrArg (fun t => t.2.2) hh) (by simp)
        · constructor
          · intro hh; exact absurd hh (by simp)
          · rintro ⟨pl, cs, hh, -⟩
            exact absurd (congrArg (fun t => t.2.2) hh) (by simp)
        · constructor
          · intro hh; exact absurd hh (by simp)
          · rintro ⟨pl, cs, hh, -⟩
            exact absurd (congrArg (fun t => t.2.2) hh) (by simp)
        · constructor
          · intro hh; exact absurd hh (by simp)
          · rintro ⟨pl, cs, hh, -⟩
            exact absurd (congrArg (fun t => t.2.2) hh) (by simp)
  | none =>
      -- decoding succeeded: continue down the multi pipeline
      obtain ⟨p, q, hs, hrev, hb⟩ := decodePayload_ok r s e2 payload hdp
      have hb256 : ∀ b ∈ payload, b < 256 := decodePayload_lt256 r s e2 payload hdp
      have hno1 : ¬(splitSep r.sep s).length ≠ 2 := by rw [hs]; simp
      have hno2 : ¬∃ a b, splitSep r.sep s = [a, b] ∧ alookup r.reverse a = none := by
        rintro ⟨a, b, hh, hrev2⟩
        rw [hs] at hh
        injection hh with h1 h2
        subst h1
        rw [hrev] at hrev2
        exact absurd hrev2 (by simp)
      have hno3 : ¬∃ a b e3, splitSep r.sep s = [a, b] ∧
          alookup r.reverse a = some e3 ∧ b64decode b = none := by
        rintro ⟨a, b, e3, hh, hrev2, hb2⟩
        rw [hs] at hh
        injection hh with h1 h2
        injection h2 with h2 _
        subst h1
        subst h2
        rw [hb] at hb2
        exact absurd hb2 (by simp)
      by_cases hne : e2 = entity
      · subst hne
        have hno4 : ¬∃ e3 pl,
            ((e2, payload, none) : Entity × List Nat × Option Err) =
              (e3, pl, none) ∧ e3 ≠ e2 := by
          rintro ⟨e3, pl, hh, hne3⟩
          exact hne3 (congrArg (fun t => t.1) hh).symm
        match hmul : alookup r.multi e2 with
        | none =>
            have hD : DeserializeMulti r e2 s targets =
                (targets.map (fun t => t.2), some Err.notMulti) := by
              unfold DeserializeMulti
              rw [hdp]
              simp only [ne_eq, not_true_eq_false, if_false, hmul]
            rw [hD]
            refine ⟨⟨fun hh => absurd hh (by simp), fun hh => absurd hh hno1⟩,
              ⟨fun hh => absurd hh (by simp), fun hh => absurd hh hno2⟩,
              ⟨fun hh => absurd hh (by simp), fun hh => absurd hh hno3⟩,
              ⟨fun hh => absurd hh (by simp), fun hh => absurd hh hno4⟩,
              ?_, ?_, ?_, ?_⟩
            · constructor
              · intro _; exact ⟨payload, rfl, rfl⟩
              · intro _; rfl
            · constructor
              · intro hh; exact absurd hh (by simp)
              · rintro ⟨pl, cs, -, hmul2, -⟩
                exact absurd hmul2 (by simp)
            · constructor
              · intro hh; exact absurd hh (by simp)
              · rintro ⟨pl, cs, -, hmul2, -⟩
                exact absurd hmul2 (by simp)
            · constructor
              · intro hh; exact absurd hh (by simp)
              · rintro ⟨pl, cs, -, hmul2, -⟩
                exact absurd hmul2 (by simp)
        | some comps =>
            have hno5 : ¬∃ pl,
                ((e2, payload, none) : Entity × List Nat × Option Err) =
                  (e2, pl, none) ∧
                  (some comps : Option (List Entity)) = none := by
              rintro ⟨pl, -, hmul2⟩
              exact absurd hmul2 (by simp)
            by_cases hcnt : targets.length = comps.length
            · by_cases hordp : ∀ tc ∈ targets.zip comps, tc.1.1 = tc.2
              · have hall : (targets.zip comps).all
                    (fun tc => tc.1.1 = tc.2) = true := by
                  rw [List.all_eq_true]
                  intro tc htc
                  exact decide_eq_true (hordp tc htc)
                have hno6 : ¬∃ pl cs,
                    ((e2, payload, none) : Entity × List Nat × Option Err) =
                      (e2, pl, none) ∧
                      (some comps : Option (List Entity)) = some cs ∧
                      targets.length ≠ cs.length := by
                  rintro ⟨pl, cs, -, hmul2, hcnt2⟩
                  simp only [Option.some_inj] at hmul2
                  subst hmul2
                  exact hcnt2 hcnt
                have hno7 : ¬∃ pl cs,
                    ((e2, payload, none) : Entity × List Nat × Option Err) =
                      (e2, pl, none) ∧
                      (some comps : Option (List Entity)) = some cs ∧
                      targets.length = cs.length ∧
                      ¬∀ tc ∈ targets.zip cs, tc.1.1 = tc.2 := by
                  rintro ⟨pl, cs, -, hmul2, -, hnall⟩
                  simp only [Option.some_inj] at hmul2
                  subst hmul2
                  exact hnall hordp
                by_cases hplen : payload.length = comps.length * 16
                · -- every check passes: the write loop runs and cannot fail
                  obtain ⟨hwnone, -⟩ := writeChunks_total
                    (targets.map (fun t => t.2)) payload
                    (by rw [List.length_map, hcnt, hplen]; ring) hb256
                  have hD : (DeserializeMulti r e2 s targets).2 = none := by
                    unfold DeserializeMulti
                    rw [hdp]
                    simp only [ne_eq, not_true_eq_false, if_false, hmul, hcnt,
                      hall, Bool.not_true, Bool.false_eq_true, hplen]
                    exact hwnone
                  rw [hD]
                  refine ⟨⟨fun hh => absurd hh (by simp), fun hh => absurd hh hno1⟩,
                    ⟨fun hh => absurd hh (by simp), fun hh => absurd hh hno2⟩,
                    ⟨fun hh => absurd hh (by simp), fun hh => absurd hh hno3⟩,
                    ⟨fun hh => absurd hh (by simp), fun hh => absurd hh hno4⟩,
                    ⟨fun hh => absurd hh (by simp), fun hh => absurd hh hno5⟩,
                    ⟨fun hh => absurd hh (by simp), fun hh => absurd hh hno6⟩,
                    ⟨fun hh => absurd hh (by simp), fun hh => absurd hh hno7⟩,
                    ?_⟩
                  constructor
                  · intro hh; exact absurd hh (by simp)
                  · rintro ⟨pl, cs, hh, hmul2, -, -, hplen2⟩
                    have hpp : payload = pl := congrArg (fun t => t.2.1) hh
                    simp only [Option.some_inj] at hmul2
                    subst hmul2
                    subst hpp
                    exact (hplen2 hplen).elim
                · have hD : DeserializeMulti r e2 s targets =
                      (targets.map (fun t => t.2), some Err.invalidUUID) := by
                    unfold DeserializeMulti
                    rw [hdp]
                    simp only [ne_eq, not_true_eq_false, if_false, hmul, hcnt,
                      hall, Bool.not_true, Bool.false_eq_true, hplen,
                      not_false_eq_true, if_true]
                  rw [hD]
                  refine ⟨⟨fun hh => absurd hh (by simp), fun hh => absurd hh hno1⟩,
                    ⟨fun hh => absurd hh (by simp), fun hh => absurd hh hno2⟩,
                    ⟨fun hh => absurd hh (by simp), fun hh => absurd hh hno3⟩,
                    ⟨fun hh => absurd hh (by simp), fun hh => absurd hh hno4⟩,
                    ⟨fun hh => absurd hh (by simp), fun hh => absurd hh hno5⟩,
                    ⟨fun hh => absurd hh (by simp), fun hh => absurd hh hno6⟩,
                    ⟨fun hh => absurd hh (by simp), fun hh => absurd hh hno7⟩,
                    ?_⟩
                  constructor
                  · intro _; exact ⟨payload, comps, rfl, rfl, hcnt, hordp, hplen⟩
                  · intro _; rfl
              · have hnall : (targets.zip comps).all
                    (fun tc => tc.1.1 = tc.2) = false := by
                  rcases hhh : (targets.zip comps).all
                      (fun tc => tc.1.1 = tc.2) with _ | _
                  · rfl
                  · exfalso
                    apply hordp
                    intro tc htc
                    exact of_decide_eq_true (List.all_eq_true.mp hhh tc htc)
                have hD : DeserializeMulti r e2 s targets =
                    (targets.map (fun t => t.2), some Err.orderMismatch) := by
                  unfold DeserializeMulti
                  rw [hdp]
                  simp only [ne_eq, not_true_eq_false, if_false, hmul, hcnt,
                    hnall, Bool.not_false, if_true]
                rw [hD]
                have hno6 : ¬∃ pl cs,
                    ((e2, payload, none) : Entity × List Nat × Option Err) =
                      (e2, pl, none) ∧
                      (some comps : Option (List Entity)) = some cs ∧
                      targets.length ≠ cs.length := by
                  rintro ⟨pl, cs, -, hmul2, hcnt2⟩
                  simp only [Option.some_inj] at hmul2
                  subst hmul2
                  exact hcnt2 hcnt
                refine ⟨⟨fun hh => absurd hh (by simp), fun hh => absurd hh hno1⟩,
                  ⟨fun hh => absurd hh (by simp), fun hh => absurd hh hno2⟩,
                  ⟨fun hh => absurd hh (by simp), fun hh => absurd hh hno3⟩,
                  ⟨fun hh => absurd hh (by simp), fun hh => absurd hh hno4⟩,
                  ⟨fun hh => absurd hh (by simp), fun hh => absurd hh hno5⟩,
                  ⟨fun hh => absurd hh (by simp), fun hh => absurd hh hno6⟩,
                  ?_, ?_⟩
                · constructor
                  · intro _; exact ⟨payload, comps, rfl, rfl, hcnt, hordp⟩
                  · intro _; rfl
                · constructor
                  · intro hh; exact absurd hh (by simp)
                  · rintro ⟨pl, cs, -, hmul2, -, hord2, -⟩
                    simp only [Option.some_inj] at hmul2
                    subst hmul2
                    exact (hordp hord2).elim
            · have hD : DeserializeMulti r e2 s targets =
                  (targets.map (fun t => t.2), some Err.countMismatch) := by
                unfold DeserializeMulti
                rw [hdp]
                simp only [ne_eq, not_true_eq_false, if_false, hmul, hcnt,
                  not_false_eq_true, if_true]
              rw [hD]
              refine ⟨⟨fun hh => absurd hh (by simp), fun hh => absurd hh hno1⟩,
                ⟨fun hh => absurd hh (by simp), fun hh => absurd hh hno2⟩,
                ⟨fun hh => absurd hh (by simp), fun hh => absurd hh hno3⟩,
                ⟨fun hh => absurd hh (by simp), fun hh => absurd hh hno4⟩,
                ⟨fun hh => absurd hh (by simp), fun hh => absurd hh hno5⟩,
                ?_, ?_, ?_⟩
              · constructor
                · intro _; exact ⟨payload, comps, rfl, rfl, hcnt⟩
                · intro _; rfl
              · constructor
                · intro hh; exact absurd hh (by simp)
                · rintro ⟨pl, cs, -, hmul2, hcnt2, -⟩
                  simp only [Option.some_inj] at hmul2
                  subst hmul2
                  exact (hcnt hcnt2).elim
              · constructor
                · intro hh; exact absurd hh (by simp)
                · rintro ⟨pl, cs, -, hmul2, hcnt2, -⟩
                  simp only [Option.some_inj] at hmul2
                  subst hmul2
                  exact (hcnt hcnt2).elim
      · have hD : DeserializeMulti r entity s targets =
            (targets.map (fun t => t.2), some Err.entityMismatch) := by
          unfold DeserializeMulti
          rw [hdp]
          simp only [ne_eq, hne, not_false_eq_true, if_true]
        rw [hD]
        refine ⟨⟨fun hh => absurd hh (by simp), fun hh => absurd hh hno1⟩,
          ⟨fun hh => absurd hh (by simp), fun hh => absurd hh hno2⟩,
          ⟨fun hh => absurd hh (by simp), fun hh => absurd hh hno3⟩,
          ?_, ?_, ?_, ?_, ?_⟩
        · constructor
          · intro _; exact ⟨e2, payload, rfl, hne⟩
          · intro _; rfl
        · constructor
          · intro hh; exact absurd hh (by simp)
          · rintro ⟨pl, hh, -⟩
            exact (hne (congrArg (fun t => t.1) hh)).elim
        · constructor
          · intro hh; exact absurd hh (by simp)
          · rintro ⟨pl, cs, hh, -⟩
            exact (hne (congrArg (fun t => t.1) hh)).elim
        · constructor
          · intro hh; exact absurd hh (by simp)
          · rintro ⟨pl, cs, hh, -⟩
            exact (hne (congrArg (fun t => t.1) hh)).elim
        · constructor
          · intro hh; exact absurd hh (by simp)
          · rintro ⟨pl, cs, hh, -⟩
            exact (hne (congrArg (fun t => t.1) hh)).elim

/-- Witness for C3 at concrete inputs: a token without a separator reports
the format error, an unknown prefix reports `ErrUnknownPrefix`, a single-
entity token for the wrong entity reports `ErrEntityMismatch`, and a correct
composite token with too few targets reports `ErrUUIDCountMismatch`. -/
theorem c3_witness :
    (DeserializeMulti reg2up 10 "noseparator".toList
      [(1, uuidNil), (2, uuidNil)]).2 = some Err.invalidFormat
    ∧ (DeserializeMulti reg2up 10 "zz.AAAA".toList
      [(1, uuidNil), (2, uuidNil)]).2 = some Err.unknownPfx
    ∧ (DeserializeMulti reg2up 10 "user.AZXje_k_dRiprKK-aEY8fg".toList
      [(1, uuidNil), (2, uuidNil)]).2 = some Err.entityMismatch
    ∧ (DeserializeMulti reg2up 10
      (SerializeMulti reg2up 10 [(1, exUUID), (2, exUUID2)]).1
      [(1, uuidNil)]).2 = some Err.countMismatch :=
  ⟨(c3_multi_error_precedence reg2up 10 "noseparator".toList
      [(1, uuidNil), (2, uuidNil)]).1.mpr (by decide),
   (c3_multi_error_precedence reg2up 10 "zz.AAAA".toList
      [(1, uuidNil), (2, uuidNil)]).2.1.mpr
      ⟨"zz".toList, "AAAA".toList, by decide, by decide⟩,
   (c3_multi_error_precedence reg2up 10 "user.AZXje_k_dRiprKK-aEY8fg".toList
      [(1, uuidNil), (2, uuidNil)]).2.2.2.1.mpr
      ⟨1, exUUID.val, by decide, by decide⟩,
   (c3_multi_error_precedence reg2up 10
      (SerializeMulti reg2up 10 [(1, exUUID), (2, exUUID2)]).1
      [(1, uuidNil)]).2.2.2.2.2.1.mpr
      ⟨exUUID.val ++ exUUID2.val, [(1 : Int), (2 : Int)],
        by decide, by decide, by decide⟩⟩

/-! ## Claim C8 -/

/-- With equal first components, the positional order check over the zip with
the component list is the same. -/
theorem zip_all_fst_congr (l1 l2 : List (Entity × UUID)) (comps : List Entity)
    (h : l1.map Prod.fst = l2.map Prod.fst) :
    (l1.zip comps).all (fun tc => tc.1.1 = tc.2) =
      (l2.zip comps).all (fun tc => tc.1.1 = tc.2) := by
  induction l1 generalizing l2 comps with
  | nil =>
      rcases l2 with _ | ⟨y, ys⟩
      · rfl
      · simp at h
  | cons x xs ih =>
      rcases l2 with _ | ⟨y, ys⟩
      · simp at h
      · simp only [List.map_cons, List.cons.injEq] at h
        rcases comps with _ | ⟨c, cs⟩
        · rfl
        · simp only [List.zip_cons_cons, List.all_cons, h.1, ih ys cs h.2]

/-- C8: `DeserializeMulti` is all-or-nothing on its target slots: every error
is detected before the write loop (so the slots are returned unchanged), the
write loop itself cannot fail once the payload-length check has passed (its
invalid-UUID branch is unreachable for decoded payloads), and on success
every slot is overwritten — the result does not depend on the slots'
previous contents. -/
theorem c8_all_or_nothing (r : Registry) (entity : Entity) (s : Str)
    (targets : List (Entity × UUID)) :
    ((DeserializeMulti r entity s targets).2 ≠ none →
      (DeserializeMulti r entity s targets).1 = targets.map (fun t => t.2))
    ∧ (∀ (slots : List UUID) (payload : List Nat),
        payload.length = 16 * slots.length → (∀ b ∈ payload, b < 256) →
        (writeChunks slots payload).2 = none)
    ∧ ((DeserializeMulti r entity s targets).2 = none →
        ∀ targets2 : List (Entity × UUID),
          targets2.map Prod.fst = targets.map Prod.fst →
          DeserializeMulti r entity s targets2 =
            ((DeserializeMulti r entity s targets).1, none)) := by
  refine ⟨?_, fun slots payload hl hb => (writeChunks_total slots payload hl hb).1, ?_⟩
  all_goals
    obtain ⟨⟨e2, payload, err⟩, hdp⟩ :
      ∃ t, decodePayload r s = t := ⟨decodePayload r s, rfl⟩
  -- part 1: any reported error leaves the slots unchanged
  · intro hne2
    cases err with
    | some k =>
        have hD : DeserializeMulti r entity s targets =
            (targets.map (fun t => t.2), some k) := by
          unfold DeserializeMulti
          rw [hdp]
        rw [hD]
    | none =>
        have hb256 : ∀ b ∈ payload, b < 256 :=
          decodePayload_lt256 r s e2 payload hdp
        by_cases hmatch : e2 = entity
        · subst hmatch
          match hmul : alookup r.multi e2 with
          | none =>
              have hD : DeserializeMulti r e2 s targets =
                  (targets.map (fun t => t.2), some Err.notMulti) := by
                unfold DeserializeMulti
                rw [hdp]
                simp only [ne_eq, not_true_eq_false, if_false, hmul]
              rw [hD]
          | some comps =>
              by_cases hcnt : targets.length = comps.length
              · by_cases hall : (targets.zip comps).all
                    (fun tc => tc.1.1 = tc.2) = true
                · by_cases hplen : payload.length = comps.length * 16
                  · obtain ⟨hwnone, -⟩ := writeChunks_total
                      (targets.map (fun t => t.2)) payload
                      (by rw [List.length_map, hcnt, hplen]; ring) hb256
                    have hD : (DeserializeMulti r e2 s targets).2 = none := by
                      unfold DeserializeMulti
                      rw [hdp]
                      simp only [ne_eq, not_true_eq_false, if_false, hmul, hcnt,
                        hall, Bool.not_true, Bool.false_eq_true, hplen]
                      exact hwnone
                    exact absurd hD hne2
                  · have hD : DeserializeMulti r e2 s targets =
                        (targets.map (fun t => t.2), some Err.invalidUUID) := by
                      unfold DeserializeMulti
                      rw [hdp]
                      simp only [ne_eq, not_true_eq_false, if_false, hmul, hcnt,
                        hall, Bool.not_true, Bool.false_eq_true, hplen,
                        not_false_eq_true, if_true]
                    rw [hD]
                · have hallf : (targets.zip comps).all
                      (fun tc => tc.1.1 = tc.2) = false := by
                    rcases hhh : (targets.zip comps).all
                        (fun tc => tc.1.1 = tc.2) with _ | _
                    · rfl
                    · exact absurd hhh hall
                  have hD : DeserializeMulti r e2 s targets =
                      (targets.map (fun t => t.2), some Err.orderMismatch) := by
                    unfold DeserializeMulti
                    rw [hdp]
                    simp only [ne_eq, not_true_eq_false, if_false, hmul, hcnt,
                      hallf, Bool.not_false, if_true]
                  rw [hD]
              · have hD : DeserializeMulti r e2 s targets =
                    (targets.map (fun t => t.2), some Err.countMismatch) := by
                  unfold DeserializeMulti
                  rw [hdp]
                  simp only [ne_eq, not_true_eq_false, if_false, hmul, hcnt,
                    not_false_eq_true, if_true]
                rw [hD]
        · have hD : DeserializeMulti r entity s targets =
              (targets.map (fun t => t.2), some Err.entityMismatch) := by
            unfold DeserializeMulti
            rw [hdp]
            simp only [ne_eq, hmatch, not_false_eq_true, if_true]
          rw [hD]
  -- part 3: on success, the result does not depend on the initial slots
  · intro hnone targets2 hfst
    cases err with
    | some k =>
        have hD : DeserializeMulti r entity s targets =
            (targets.map (fun t => t.2), some k) := by
          unfold DeserializeMulti
          rw [hdp]
        rw [hD] at hnone
        exact absurd hnone (by simp)
    | none =>
        have hb256 : ∀ b ∈ payload, b < 256 :=
          decodePayload_lt256 r s e2 payload hdp
        by_cases hmatch : e2 = entity
        · subst hmatch
          match hmul : alookup r.multi e2 with
          | none =>
              have hD : DeserializeMulti r e2 s targets =
                  (targets.map (fun t => t.2), some Err.notMulti) := by
                unfold DeserializeMulti
                rw [hdp]
                simp only [ne_eq, not_true_eq_false, if_false, hmul]
              rw [hD] at hnone
              exact absurd hnone (by simp)
          | some comps =>
              by_cases hcnt : targets.length = comps.length
              · by_cases hall : (targets.zip comps).all
                    (fun tc => tc.1.1 = tc.2) = true
                · by_cases hplen : payload.length = comps.length * 16
                  · have hcnt2 : targets2.length = comps.length := by
                      have := congrArg List.length hfst
                      simp only [List.length_map] at this
                      omega
                    have hall2 : (targets2.zip comps).all
                        (fun tc => tc.1.1 = tc.2) = true := by
                      rw [zip_all_fst_congr targets2 targets comps hfst]
                      exact hall
                    obtain ⟨hwnone, hwind⟩ := writeChunks_total
                      (targets.map (fun t => t.2)) payload
                      (by rw [List.length_map, hcnt, hplen]; ring) hb256
                    have hD : DeserializeMulti r e2 s targets =
                        writeChunks (targets.map (fun t => t.2)) payload := by
                      unfold DeserializeMulti
                      rw [hdp]
                      simp only [ne_eq, not_true_eq_false, if_false, hmul, hcnt,
                        hall, Bool.not_true, Bool.false_eq_true, hplen]
                    have hD2 : DeserializeMulti r e2 s targets2 =
                        writeChunks (targets2.map (fun t => t.2)) payload := by
                      unfold DeserializeMulti
                      rw [hdp]
                      simp only [ne_eq, not_true_eq_false, if_false, hmul, hcnt2,
                        hall2, Bool.not_true, Bool.false_eq_true, hplen]
                    rw [hD2, hD,
                      hwind (targets2.map (fun t => t.2))
                        (by rw [List.length_map, List.length_map, hcnt2, hcnt])]
                    have hpair :
                        writeChunks (targets.map (fun t => t.2)) payload =
                          ((writeChunks (targets.map (fun t => t.2)) payload).1,
                            none) := by
                      rcases hww : writeChunks (targets.map (fun t => t.2)) payload
                        with ⟨ws, werr⟩
                      rw [hww] at hwnone
                      simp only at hwnone
                      rw [hww, hwnone]
                    exact hpair
                  · have hD : DeserializeMulti r e2 s targets =
                        (targets.map (fun t => t.2), some Err.invalidUUID) := by
                      unfold DeserializeMulti
                      rw [hdp]
                      simp only [ne_eq, not_true_eq_false, if_false, hmul, hcnt,
                        hall, Bool.not_true, Bool.false_eq_true, hplen,
                        not_false_eq_true, if_true]
                    rw [hD] at hnone
                    exact absurd hnone (by simp)
                · have hallf : (targets.zip comps).all
                      (fun tc => tc.1.1 = tc.2) = false := by
                    rcases hhh : (targets.zip comps).all
                        (fun tc => tc.1.1 = tc.2) with _ | _
                    · rfl
                    · exact absurd hhh hall
                  have hD : DeserializeMulti r e2 s targets =
                      (targets.map (fun t => t.2), some Err.orderMismatch) := by
                    unfold DeserializeMulti
                    rw [hdp]
                    simp only [ne_eq, not_true_eq_false, if_false, hmul, hcnt,
                      hallf, Bool.not_false, if_true]
                  rw [hD] at hnone
                  exact absurd hnone (by simp)
              · have hD : DeserializeMulti r e2 s targets =
                    (targets.map (fun t => t.2), some Err.countMismatch) := by
                  unfold DeserializeMulti
                  rw [hdp]
                  simp only [ne_eq, not_true_eq_false, if_false, hmul, hcnt,
                    not_false_eq_true, if_true]
                rw [hD] at hnone
                exact absurd hnone (by simp)
        · have hD : DeserializeMulti r entity s targets =
              (targets.map (fun t => t.2), some Err.entityMismatch) := by
            unfold DeserializeMulti
            rw [hdp]
            simp only [ne_eq, hmatch, not_false_eq_true, if_true]
          rw [hD] at hnone
          exact absurd hnone (by simp)

/-- Witness for C8: on `reg2up`, a failing call (wrong target count) leaves
both nil slots unchanged, the write loop succeeds on a concrete 32-byte
payload, and a successful call overwrites slots regardless of their previous
contents. -/
theorem c8_witness :
    (DeserializeMulti reg2up 10
      (SerializeMulti reg2up 10 [(1, exUUID), (2, exUUID2)]).1
      [(1, uuidNil)]).1 = [uuidNil]
    ∧ (writeChunks [uuidNil, uuidNil] (exUUID.val ++ exUUID2.val)).2 = none
    ∧ DeserializeMulti reg2up 10
        (SerializeMulti reg2up 10 [(1, exUUID), (2, exUUID2)]).1
        [(1, exUUID2), (2, exUUID)] =
      ((DeserializeMulti reg2up 10
          (SerializeMulti reg2up 10 [(1, exUUID), (2, exUUID2)]).1
          [(1, uuidNil), (2, uuidNil)]).1, none) :=
  have h := c8_all_or_nothing reg2up 10
    (SerializeMulti reg2up 10 [(1, exUUID), (2, exUUID2)]).1 [(1, uuidNil)]
  have h2 := c8_all_or_nothing reg2up 10
    (SerializeMulti reg2up 10 [(1, exUUID), (2, exUUID2)]).1
    [(1, uuidNil), (2, uuidNil)]
  ⟨h.1 (by decide),
    h.2.1 [uuidNil, uuidNil] (exUUID.val ++ exUUID2.val) (by decide) (by decide),
    h2.2.2 (by decide) [(1, exUUID2), (2, exUUID)] (by decide)⟩

end PrefixedUUIDs
